import Mathlib

/-!
# Verification of the AOE2 campaign-transfer record-relocation engine

Shallow embedding of `tools/dat_implant_units.py` and
`tools/dat_implant_techs.py` from the `AOE2-Campaign-Transfer` repository.
Python objects become Lean structures (deep copies are value copies),
in-place mutation becomes explicit state passing, and Python `raise`
becomes the `Except` monad.  Python `int` is modelled by `Int`; slot
indices and start parameters, which are unit/tech IDs (non-negative by
the data format), are modelled by `Nat`.  The effect-slot arithmetic of
the tech implanter can go negative, so there Python list indexing
(including the negative-index wrap-around and the `IndexError` on
out-of-range access) is modelled explicitly.
-/

namespace AOE2

/-- A relocation map, Python `dict[int, int]` with distinct keys,
modelled as an association list (`{old_id: new_id}`). -/
abbrev RelocMap := List (Int × Int)

/-- The body of the local `do(v)` helper of `_remap_unit_id_refs_in_unit`:
`if isinstance(v, int) and v in id_mapping: return id_mapping[v], 1` and
`return v, 0` otherwise. -/
def remapWithCount (m : RelocMap) (v : Int) : Int × Nat :=
  match m.lookup v with
  | some w => (w, 1)
  | none => (v, 0)

/-- The value component of `remapWithCount`. -/
def remapVal (m : RelocMap) (v : Int) : Int :=
  (remapWithCount m v).1

/-- Python `{source_start + j: target_start + j for j in range(implant_count)}`. -/
def buildRelocMap (s t K : Nat) : RelocMap :=
  (List.range K).map fun j => (((s + j : Nat) : Int), ((t + j : Nat) : Int))

/-! ## Record model (decoded `genieutils` unit graph)

Only the fields the tools read or write are needed for the claims; each
sub-structure also keeps one representative non-reference field so that
frame statements ("every non-reference field unchanged") are meaningful.
-/

structure AnnexT where
  unit_id : Int
  misplacement_x : Int
  deriving DecidableEq, Repr

structure BuildingT where
  stack_unit_id : Int
  head_unit : Int
  transform_unit : Int
  pile_unit : Int
  annexes : List (Option AnnexT)
  construction_graphic_id : Int
  deriving DecidableEq, Repr

structure ProjectileT where
  projectile_unit_id : Int
  smart_mode : Int
  deriving DecidableEq, Repr

structure DeadFishT where
  tracking_unit : Int
  rotation_speed : Int
  deriving DecidableEq, Repr

structure TrainLocationT where
  unit_id : Int
  button_id : Int
  deriving DecidableEq, Repr

structure CreatableT where
  train_locations : List (Option TrainLocationT)
  train_time : Int
  deriving DecidableEq, Repr

structure UnitT where
  id : Int
  name : String
  hit_points : Int
  copy_id : Int
  base_id : Int
  dead_unit_id : Int
  blood_unit_id : Int
  building : Option BuildingT
  projectile : Option ProjectileT
  dead_fish : Option DeadFishT
  creatable : Option CreatableT
  deriving DecidableEq, Repr

/-- Mirrors `UnitHeaders(exists=?, task_list=?)`; the `exists` attribute is named
`exists_flag` because `exists` is reserved in Lean. -/
structure UnitHeadersT where
  exists_flag : Int
  task_list : Option (List Int)
  deriving DecidableEq, Repr

/-- One civilization ("realm"): its parallel `units` slot array.
A `none` slot is Python `None` (empty slot). -/
structure CivT where
  units : List (Option UnitT)
  deriving DecidableEq, Repr

/-- The decoded unit side of a `DatFile`: `unit_headers` (whose elements
may themselves be `None`, as `_is_blank_header` allows) and `civs`. -/
structure DatFileU where
  unit_headers : List (Option UnitHeadersT)
  civs : List CivT
  deriving DecidableEq, Repr

/-! ## `_remap_unit_id_refs_in_unit` -/

/-- The loop over `building.annexes`: every non-`None` annex has its
`unit_id` passed through the `do` helper; counts are summed. -/
def remapAnnexes (m : RelocMap) : List (Option AnnexT) → List (Option AnnexT) × Nat
  | [] => ([], 0)
  | none :: rest =>
      let r := remapAnnexes m rest
      (none :: r.1, r.2)
  | some a :: rest =>
      let p := remapWithCount m a.unit_id
      let r := remapAnnexes m rest
      (some { a with unit_id := p.1 } :: r.1, p.2 + r.2)

/-- The loop over `creatable.train_locations`. -/
def remapTrainLocations (m : RelocMap) :
    List (Option TrainLocationT) → List (Option TrainLocationT) × Nat
  | [] => ([], 0)
  | none :: rest =>
      let r := remapTrainLocations m rest
      (none :: r.1, r.2)
  | some tl :: rest =>
      let p := remapWithCount m tl.unit_id
      let r := remapTrainLocations m rest
      (some { tl with unit_id := p.1 } :: r.1, p.2 + r.2)

/-- The `building` block of `_remap_unit_id_refs_in_unit`:
`stack_unit_id` / `head_unit` / `transform_unit` / `pile_unit` plus the
annex loop. -/
def remapBuilding (m : RelocMap) (b : BuildingT) : BuildingT × Nat :=
  let p1 := remapWithCount m b.stack_unit_id
  let p2 := remapWithCount m b.head_unit
  let p3 := remapWithCount m b.transform_unit
  let p4 := remapWithCount m b.pile_unit
  let pa := remapAnnexes m b.annexes
  ({ b with stack_unit_id := p1.1, head_unit := p2.1, transform_unit := p3.1,
            pile_unit := p4.1, annexes := pa.1 },
   p1.2 + p2.2 + p3.2 + p4.2 + pa.2)

/-- Embeds `_remap_unit_id_refs_in_unit(unit, id_mapping)`: rewrites every
enumerated unit-ID reference field through the `do` helper and returns
the rewritten unit together with the remap count `n`. -/
def _remap_unit_id_refs_in_unit (m : RelocMap) (u : UnitT) : UnitT × Nat :=
  let p1 := remapWithCount m u.copy_id
  let p2 := remapWithCount m u.base_id
  let p3 := remapWithCount m u.dead_unit_id
  let p4 := remapWithCount m u.blood_unit_id
  let pb : Option BuildingT × Nat :=
    match u.building with
    | none => (none, 0)
    | some b =>
        let q := remapBuilding m b
        (some q.1, q.2)
  let pp : Option ProjectileT × Nat :=
    match u.projectile with
    | none => (none, 0)
    | some pr =>
        let q := remapWithCount m pr.projectile_unit_id
        (some { pr with projectile_unit_id := q.1 }, q.2)
  let pd : Option DeadFishT × Nat :=
    match u.dead_fish with
    | none => (none, 0)
    | some df =>
        let q := remapWithCount m df.tracking_unit
        (some { df with tracking_unit := q.1 }, q.2)
  let pc : Option CreatableT × Nat :=
    match u.creatable with
    | none => (none, 0)
    | some cr =>
        let q := remapTrainLocations m cr.train_locations
        (some { cr with train_locations := q.1 }, q.2)
  ({ u with copy_id := p1.1, base_id := p2.1, dead_unit_id := p3.1,
            blood_unit_id := p4.1, building := pb.1, projectile := pp.1,
            dead_fish := pd.1, creatable := pc.1 },
   p1.2 + p2.2 + p3.2 + p4.2 + pb.2 + pp.2 + pd.2 + pc.2)

/-! ### Spec-side description of the rewrite

`specRewriteUnit` is modelled from the spec's words ("replaces each
enumerated unit-ID reference field whose value is a key of the map with
the mapped value, and leaves every field whose value is not a key of
the map, and every non-reference field, unchanged"): each enumerated
reference path is sent through `remapVal`, and nothing else changes. -/

def specRewriteAnnex (m : RelocMap) (a : AnnexT) : AnnexT :=
  { a with unit_id := remapVal m a.unit_id }

def specRewriteTrainLocation (m : RelocMap) (tl : TrainLocationT) : TrainLocationT :=
  { tl with unit_id := remapVal m tl.unit_id }

def specRewriteBuilding (m : RelocMap) (b : BuildingT) : BuildingT :=
  { b with stack_unit_id := remapVal m b.stack_unit_id,
           head_unit := remapVal m b.head_unit,
           transform_unit := remapVal m b.transform_unit,
           pile_unit := remapVal m b.pile_unit,
           annexes := b.annexes.map (Option.map (specRewriteAnnex m)) }

def specRewriteProjectile (m : RelocMap) (pr : ProjectileT) : ProjectileT :=
  { pr with projectile_unit_id := remapVal m pr.projectile_unit_id }

def specRewriteDeadFish (m : RelocMap) (df : DeadFishT) : DeadFishT :=
  { df with tracking_unit := remapVal m df.tracking_unit }

def specRewriteCreatable (m : RelocMap) (cr : CreatableT) : CreatableT :=
  { cr with train_locations :=
      cr.train_locations.map (Option.map (specRewriteTrainLocation m)) }

def specRewriteUnit (m : RelocMap) (u : UnitT) : UnitT :=
  { u with copy_id := remapVal m u.copy_id,
           base_id := remapVal m u.base_id,
           dead_unit_id := remapVal m u.dead_unit_id,
           blood_unit_id := remapVal m u.blood_unit_id,
           building := u.building.map (specRewriteBuilding m),
           projectile := u.projectile.map (specRewriteProjectile m),
           dead_fish := u.dead_fish.map (specRewriteDeadFish m),
           creatable := u.creatable.map (specRewriteCreatable m) }

/-! ## `implant_units_from_dat` -/

/-- Embeds `_blank_unit_header()`: `UnitHeaders(exists=0, task_list=None)`. -/
def _blank_unit_header : UnitHeadersT := { exists_flag := 0, task_list := none }

/-- Embeds `_is_blank_header(h)`: `h is None or getattr(h, "exists", 1) == 0`. -/
def _is_blank_header : Option UnitHeadersT → Bool
  | none => true
  | some h => h.exists_flag == 0

/-- Embeds `_ensure_length(lst, length, blank_fill)`: append `blank_fill`
until the list has at least `length` elements (never truncates). -/
def _ensure_length (l : List α) (length : Nat) (blank_fill : α) : List α :=
  l ++ List.replicate (length - l.length) blank_fill

/-- Unit-slot count of a dat file: `len(civs[0].units) if civs else
len(unit_headers)`. -/
def nUnits (d : DatFileU) : Nat :=
  match d.civs with
  | [] => d.unit_headers.length
  | c :: _ => c.units.length

/-- Whether some civ has a non-`None` unit at `idx`
(`idx < len(civ.units) and civ.units[idx] is not None`). -/
def slotOccupied (d : DatFileU) (idx : Nat) : Bool :=
  d.civs.any fun civ =>
    match civ.units.get? idx with
    | some (some _) => true
    | _ => false

/-- The per-slot test of step 3: `idx < len(unit_headers)` and either
the header is non-blank (first `continue` arm) or some civ holds a
non-`None` unit there. -/
def overwriteCond (d : DatFileU) (idx : Nat) : Bool :=
  match d.unit_headers.get? idx with
  | none => false
  | some h => (¬ _is_blank_header h) || slotOccupied d idx

/-- Step 3 of `implant_units_from_dat`: the set of footprint slots that
hold a non-blank header or a non-`None` unit in some civ (collected in
ascending order, as `sorted(overwritten_indices)` prints them). -/
def overwrittenIdx (d : DatFileU) (target_start implant_count : Nat) : List Nat :=
  (List.range implant_count).filterMap fun i =>
    if overwriteCond d (target_start + i) then some (target_start + i) else none

/-- Modelled from the spec: "destination slots in the implant footprint
that held a pre-existing non-empty record before the implant" — a
non-blank header or a non-`None` unit in some civ of the *original*
target. -/
def specPreExistingNonEmpty (d : DatFileU) (idx : Nat) : Bool :=
  (match d.unit_headers.get? idx with
   | some h => ¬ _is_blank_header h
   | none => false) || slotOccupied d idx

/-- The unit chosen for civ `c` and source slot `src_idx`:
`source.civs[c].units[src_idx]` when both indices are in range,
otherwise the civ-0 fallback (when `copy_extra_civs_from_first` and
available), otherwise `None`. -/
def pickSourceUnit (src : DatFileU) (copy_extra : Bool) (c src_idx : Nat) : Option UnitT :=
  match (src.civs.get? c).bind fun cv => cv.units.get? src_idx with
  | some e => e
  | none =>
      if copy_extra then
        match (src.civs.get? 0).bind fun cv => cv.units.get? src_idx with
        | some e => e
        | none => none
      else none

/-- The value written to `target.civs[c].units[tgt_idx]`: a deep copy of
the chosen source unit with `clone.id = tgt_idx` and
`_remap_unit_id_refs_in_unit(clone, id_mapping)` applied, or `None`. -/
def plantedUnit (src : DatFileU) (copy_extra : Bool) (m : RelocMap)
    (c src_idx tgt_idx : Nat) : Option UnitT :=
  (pickSourceUnit src copy_extra c src_idx).map fun u =>
    (_remap_unit_id_refs_in_unit m { u with id := (tgt_idx : Int) }).1

/-- The value written to `target.unit_headers[tgt_idx]`: a copy of
`source.unit_headers[src_idx]` when `src_idx < n_source_headers`, else a
fresh blank header. -/
def plantedHeader (src : DatFileU) (src_idx : Nat) : Option UnitHeadersT :=
  (src.unit_headers.get? src_idx).getD (some _blank_unit_header)

/-- The inner civ loop of step 4, for one `i`: write the planted unit
into slot `tgt_idx` of every target civ (`c` is the running civ index). -/
def setUnitsAt (src : DatFileU) (copy_extra : Bool) (m : RelocMap)
    (src_idx tgt_idx : Nat) : Nat → List CivT → List CivT
  | _, [] => []
  | c, civ :: rest =>
      { civ with units := civ.units.set tgt_idx (plantedUnit src copy_extra m c src_idx tgt_idx) }
        :: setUnitsAt src copy_extra m src_idx tgt_idx (c + 1) rest

/-- One iteration of the write loop of step 4 (offset `i`). -/
def implantStep (src : DatFileU) (copy_extra : Bool) (m : RelocMap)
    (source_start target_start i : Nat) (d : DatFileU) : DatFileU :=
  { unit_headers := d.unit_headers.set (target_start + i) (plantedHeader src (source_start + i)),
    civs := setUnitsAt src copy_extra m (source_start + i) (target_start + i) 0 d.civs }

/-- The write loop of step 4, iterating offsets `[i, i+rem)`. -/
def implantWrites (src : DatFileU) (copy_extra : Bool) (m : RelocMap)
    (source_start target_start : Nat) : Nat → Nat → DatFileU → DatFileU
  | _, 0, d => d
  | i, rem + 1, d =>
      implantWrites src copy_extra m source_start target_start (i + 1) rem
        (implantStep src copy_extra m source_start target_start i d)

/-- Result of a unit implant.  `src` is the source store threaded
through untouched (no statement of `implant_units_from_dat` assigns into
`source_data`), `tgt` the mutated target, `cnt` the returned implant
count, `overwritten` the collected non-blank footprint slots, `noticed`
whether the overwrite reminder was printed. -/
structure ImplantResult where
  src : DatFileU
  tgt : DatFileU
  cnt : Nat
  overwritten : List Nat
  noticed : Bool
  deriving DecidableEq, Repr

/-- The shared epilogue of both validation prologues: the
`implant_count <= 0` check and the return. -/
def finishCount (implant_count_i : Int) : Except String Nat :=
  if implant_count_i ≤ 0 then
    .error "植入数量为 0，请检查 source_start / source_end / count"
  else
    .ok implant_count_i.toNat

/-- The validation prologue of `implant_units_from_dat` (lines 85-102):
bounds check on `source_start`, range-length selection (`count` branch
first, then `source_end`, then the tail default) and the final
`implant_count <= 0` check. -/
def implantCountUnitsE (n_source source_start : Nat) (source_end : Option Nat)
    (count : Option Int) : Except String Nat :=
  if source_start ≥ n_source then
    .error s!"源模组单位总数 {n_source}，source_start={source_start} 越界"
  else
    match count with
    | some c => finishCount (min c ((n_source : Int) - source_start))
    | none =>
        match source_end with
        | some se =>
            if se < source_start then
              .error s!"source_end={se} 不能小于 source_start={source_start}"
            else if se ≥ n_source then
              .error s!"source_end={se} 越界"
            else
              finishCount ((se : Int) - source_start + 1)
        | none => finishCount ((n_source : Int) - source_start)

/-- The mutation body of `implant_units_from_dat` (steps 1-4, after
validation): extend, collect overwrites, write the footprint. -/
def implantUnitsCore (source target : DatFileU)
    (source_start target_start implant_count : Nat)
    (warn_overwrite copy_extra_civs_from_first : Bool) : ImplantResult :=
  let need_len := target_start + implant_count
  let target1 : DatFileU :=
    { unit_headers := _ensure_length target.unit_headers need_len (some _blank_unit_header),
      civs := target.civs.map fun civ => { civ with units := _ensure_length civ.units need_len none } }
  let overwritten := overwrittenIdx target1 target_start implant_count
  let noticed := (¬ overwritten.isEmpty) && warn_overwrite
  let id_mapping := buildRelocMap source_start target_start implant_count
  let target2 := implantWrites source copy_extra_civs_from_first id_mapping
    source_start target_start 0 implant_count target1
  { src := source, tgt := target2, cnt := implant_count,
    overwritten := overwritten, noticed := noticed }

/-- Embeds `implant_units_from_dat`: copies units
`[source_start, source_start+count)` of `source` into target slots
`[target_start, ...)`.  `ValueError` becomes `Except.error`.  The
`count` parameter is a Python `int` (may be non-positive), `source_end`
a unit ID. -/
def implant_units_from_dat (source target : DatFileU)
    (source_start : Nat) (source_end : Option Nat) (count : Option Int)
    (target_start : Nat) (warn_overwrite copy_extra_civs_from_first : Bool) :
    Except String ImplantResult :=
  match implantCountUnitsE (nUnits source) source_start source_end count with
  | .error msg => .error msg
  | .ok implant_count =>
      .ok (implantUnitsCore source target source_start target_start implant_count
        warn_overwrite copy_extra_civs_from_first)

/-! ## `fix_implanted_unit_self_ids` -/

/-- One iteration of the `fix_implanted_unit_self_ids` inner loop:
`if i < len(units) and units[i] is not None and hasattr(units[i], "id")`
then align `units[i].id` with `i`, counting 1 when it actually changed. -/
def fixIdStep (i : Nat) (units : List (Option UnitT)) : List (Option UnitT) × Nat :=
  match units.get? i with
  | some (some u) =>
      if u.id ≠ (i : Int) then (units.set i (some { u with id := (i : Int) }), 1)
      else (units, 0)
  | _ => (units, 0)

/-- The inner loop of `fix_implanted_unit_self_ids` over one civ's
`units` for the given slot indices; returns the updated slot array and
the number of corrections. -/
def fixIdsInCiv : List Nat → List (Option UnitT) → List (Option UnitT) × Nat
  | [], units => (units, 0)
  | i :: rest, units =>
      ((fixIdsInCiv rest (fixIdStep i units).1).1,
       (fixIdStep i units).2 + (fixIdsInCiv rest (fixIdStep i units).1).2)

/-- Embeds `fix_implanted_unit_self_ids(target_data, unit_indices)`: set
`Unit.id` to the slot index for every indexed, non-`None` unit in every
civ; returns the updated store and the correction count. -/
def fix_implanted_unit_self_ids (target_data : DatFileU) (unit_indices : List Nat) :
    DatFileU × Nat :=
  ({ target_data with civs := target_data.civs.map fun civ =>
      { civ with units := (fixIdsInCiv unit_indices civ.units).1 } },
   (target_data.civs.map fun civ => (fixIdsInCiv unit_indices civ.units).2).sum)

/-! ## `remap_unit_copy_base_ids_global` -/

/-- The inner loop of the global remap over one civ's `units`. -/
def remapUnitsList (m : RelocMap) : List (Option UnitT) → List (Option UnitT) × Nat
  | [] => ([], 0)
  | none :: rest =>
      let r := remapUnitsList m rest
      (none :: r.1, r.2)
  | some u :: rest =>
      let p := _remap_unit_id_refs_in_unit m u
      let r := remapUnitsList m rest
      (some p.1 :: r.1, p.2 + r.2)

/-- Embeds `remap_unit_copy_base_ids_global(target_data, id_mapping)`: apply
`_remap_unit_id_refs_in_unit` to every non-`None` unit of every civ;
returns the updated store and the total remap count. -/
def remap_unit_copy_base_ids_global (target_data : DatFileU) (id_mapping : RelocMap) :
    DatFileU × Nat :=
  ({ target_data with civs := target_data.civs.map fun civ =>
      { civ with units := (remapUnitsList id_mapping civ.units).1 } },
   (target_data.civs.map fun civ => (remapUnitsList id_mapping civ.units).2).sum)

/-! ## `check_unit_id_coherence` -/

/-- One issue: `(unit_index, civ_index, field_path, bad_value, message)`. -/
abbrev Issue := Nat × Nat × String × Int × String

/-- Embeds `_iter_unit_id_refs_for_check(unit)`: the `(path, value)` list of
every enumerated unit-ID reference field (same field set as
`_remap_unit_id_refs_in_unit`). -/
def _iter_unit_id_refs_for_check : Option UnitT → List (String × Int)
  | none => []
  | some u =>
      [("copy_id", u.copy_id), ("base_id", u.base_id),
       ("dead_unit_id", u.dead_unit_id), ("blood_unit_id", u.blood_unit_id)]
      ++ (match u.building with
          | none => []
          | some b =>
              [("building.stack_unit_id", b.stack_unit_id),
               ("building.head_unit", b.head_unit),
               ("building.transform_unit", b.transform_unit),
               ("building.pile_unit", b.pile_unit)]
              ++ b.annexes.enum.filterMap fun p =>
                   p.2.map fun a => (s!"building.annexes[{p.1}].unit_id", a.unit_id))
      ++ (match u.projectile with
          | none => []
          | some pr => [("projectile.projectile_unit_id", pr.projectile_unit_id)])
      ++ (match u.dead_fish with
          | none => []
          | some df => [("dead_fish.tracking_unit", df.tracking_unit)])
      ++ (match u.creatable with
          | none => []
          | some cr =>
              cr.train_locations.enum.filterMap fun p =>
                p.2.map fun tl => (s!"creatable.train_locations[{p.1}].unit_id", tl.unit_id))

/-- The issues produced by one civ (`civ_idx` fixed) for one slot `ui`. -/
def checkSlot (migrated_old_ids : List Int) (civ_idx : Nat)
    (units : List (Option UnitT)) (ui : Nat) : List Issue :=
  match units.get? ui with
  | some (some u) =>
      (if u.id ≠ (ui : Int) then
        [(ui, civ_idx, "id", u.id, s!"单位[{ui}] 文明{civ_idx} .id={u.id}，应为 {ui}")]
       else [])
      ++ (_iter_unit_id_refs_for_check (some u)).filterMap fun pv =>
           if pv.2 ∈ migrated_old_ids then
             some (ui, civ_idx, pv.1, pv.2,
               s!"单位[{ui}] 文明{civ_idx} {pv.1}={pv.2}，已迁移区间不应再引用")
           else none
  | _ => []

/-- The civ loop of `check_unit_id_coherence` with running civ index. -/
def checkCivs (indices : List Nat) (migrated_old_ids : List Int) :
    Nat → List CivT → List Issue
  | _, [] => []
  | civ_idx, civ :: rest =>
      (indices.flatMap fun ui => checkSlot migrated_old_ids civ_idx civ.units ui)
      ++ checkCivs indices migrated_old_ids (civ_idx + 1) rest

/-- Embeds `check_unit_id_coherence(data, implanted_indices, migrated_old_ids)`:
read-only audit; flags `id ≠ slot` and references to migrated old IDs,
for implanted slots only. -/
def check_unit_id_coherence (data : DatFileU) (implanted_indices : List Nat)
    (migrated_old_ids : List Int) : List Issue :=
  checkCivs implanted_indices migrated_old_ids 0 data.civs

/-! ## `implant_techs_from_dat`

The tech implanter computes effect target slots as
`eid + (target_tech_start - source_start)`, which can be negative, so
Python list subscripts are modelled exactly: a negative index within
`-len..-1` wraps to `len + i`, anything else raises `IndexError`.
-/

structure TechT where
  name : String
  effect_id : Int
  required_techs : List Int
  research_time : Int
  deriving DecidableEq, Repr

structure EffectT where
  name : String
  payload : Int
  deriving DecidableEq, Repr

structure DatFileT where
  techs : List TechT
  effects : List EffectT
  deriving DecidableEq, Repr

/-- Normalise a Python list subscript for a list of length `n`. -/
def pyNorm (n : Nat) (i : Int) : Option Nat :=
  if 0 ≤ i then (if i < (n : Int) then some i.toNat else none)
  else if 0 ≤ (n : Int) + i then some ((n : Int) + i).toNat else none

/-- Python `lst[i]` (read). -/
def pyGet (l : List α) (i : Int) : Except String α :=
  match pyNorm l.length i with
  | some j =>
      match l.get? j with
      | some x => .ok x
      | none => .error "list index out of range"
  | none => .error "list index out of range"

/-- Python `lst[i] = x`. -/
def pySet (l : List α) (i : Int) (x : α) : Except String (List α) :=
  match pyNorm l.length i with
  | some j => .ok (l.set j x)
  | none => .error "list assignment index out of range"

/-- The techs-file `_ensure_length` with an `int` target length
(`need_effect_len` is computed in `int` arithmetic and may be ≤ 0, in
which case the `while` loop body never runs). -/
def ensureLengthInt (l : List α) (length : Int) (placeholder : α) : List α :=
  l ++ List.replicate (length.toNat - l.length) placeholder

/-- The `effect_id` collection loop: for `i in range(k)` read
`source.techs[source_start + i].effect_id`, raising when it is outside
`[0, n_source_effects)`. -/
def collectEffectIds (src : DatFileT) (source_start n_source_effects : Nat) :
    Nat → Except String (List Int)
  | 0 => .ok []
  | k + 1 =>
      match collectEffectIds src source_start n_source_effects k with
      | .error msg => .error msg
      | .ok prev =>
          match src.techs.get? (source_start + k) with
          | none => .error "tech index out of range"
          | some tech =>
              if tech.effect_id < 0 ∨ tech.effect_id ≥ (n_source_effects : Int) then
                .error s!"源科技的 effect_id={tech.effect_id} 越界：源模组效果数量为 {n_source_effects}"
              else
                .ok (prev ++ [tech.effect_id])

/-- The overwrite-notice collection over effect target slots:
`(tgt_idx, old name)` for every referenced effect id. -/
def collectOwEffects (tech_offset : Int) (effects : List EffectT) :
    List Int → Except String (List (Int × String))
  | [] => .ok []
  | e :: rest =>
      match pyGet effects (e + tech_offset) with
      | .error msg => .error msg
      | .ok eff =>
          match collectOwEffects tech_offset effects rest with
          | .error msg => .error msg
          | .ok others => .ok ((e + tech_offset, eff.name) :: others)

/-- The effect write loop: `effects[eid + offset] = deepcopy(source.effects[eid])`. -/
def implantEffects (src : DatFileT) (tech_offset : Int) :
    List Int → List EffectT → Except String (List EffectT)
  | [], effects => .ok effects
  | e :: rest, effects =>
      match src.effects.get? e.toNat with
      | none => .error "effect index out of range"
      | some eff =>
          match pySet effects (e + tech_offset) eff with
          | .error msg => .error msg
          | .ok effects1 => implantEffects src tech_offset rest effects1

/-- The tech write loop (offsets `[i, i+rem)`): deep copy, shift
`effect_id` by the offset, shift the `required_techs` that fall inside
`[source_start, source_tech_end]`, and store at `target_tech_start+i`. -/
def implantTechWrites (src : DatFileT) (source_start target_tech_start : Nat)
    (tech_offset : Int) (source_tech_end : Nat) :
    Nat → Nat → List TechT → Except String (List TechT)
  | _, 0, techs => .ok techs
  | i, rem + 1, techs =>
      match src.techs.get? (source_start + i) with
      | none => .error "tech index out of range"
      | some tech =>
          implantTechWrites src source_start target_tech_start tech_offset
            source_tech_end (i + 1) rem
            (techs.set (target_tech_start + i)
              { tech with
                  effect_id := tech.effect_id + tech_offset,
                  required_techs := tech.required_techs.map fun r =>
                    if (source_start : Int) ≤ r ∧ r ≤ (source_tech_end : Int) then
                      r + tech_offset
                    else r })

/-- Result of a tech implant (`src` threaded untouched). -/
structure TechImplantResult where
  src : DatFileT
  tgt : DatFileT
  cnt : Nat
  ow_effects : List (Int × String)
  ow_techs : List (Nat × String)
  noticed : Bool
  deriving DecidableEq, Repr

/-- The validation prologue of `implant_techs_from_dat` (lines 69-86),
identical in structure to the units one. -/
def implantCountTechsE (n_source_techs source_start : Nat) (source_end : Option Nat)
    (count : Option Int) : Except String Nat :=
  if source_start ≥ n_source_techs then
    .error s!"源模组科技总数 {n_source_techs}，source_start={source_start} 越界"
  else
    match count with
    | some c => finishCount (min c ((n_source_techs : Int) - source_start))
    | none =>
        match source_end with
        | some se =>
            if se < source_start then
              .error s!"source_end={se} 不能小于 source_start={source_start}"
            else if se ≥ n_source_techs then
              .error s!"source_end={se} 越界"
            else
              finishCount ((se : Int) - source_start + 1)
        | none => finishCount ((n_source_techs : Int) - source_start)

/-- The per-slot overwrite notice for the tech footprint:
`(tgt_idx, old name)` for every destination tech slot. -/
def owTechsList (target_tech_start implant_count : Nat) (techs1 : List TechT) :
    List (Nat × String) :=
  (List.range implant_count).map fun i =>
    (target_tech_start + i,
     (((techs1.get? (target_tech_start + i)).map TechT.name).getD ""))

/-- Final stage of the tech implant: the effect writes, then the tech
writes, then the result record. -/
def implantTechsFinish (source : DatFileT)
    (source_start target_tech_start implant_count : Nat) (warn_overwrite : Bool)
    (effect_ids : List Int) (effects1 : List EffectT) (techs1 : List TechT)
    (ow_effects : List (Int × String)) : Except String TechImplantResult :=
  match implantEffects source ((target_tech_start : Int) - source_start)
      effect_ids effects1 with
  | .error msg => .error msg
  | .ok effects2 =>
      match implantTechWrites source source_start target_tech_start
          ((target_tech_start : Int) - source_start)
          (source_start + implant_count - 1) 0 implant_count techs1 with
      | .error msg => .error msg
      | .ok techs2 =>
          .ok { src := source, tgt := { techs := techs2, effects := effects2 },
                cnt := implant_count, ow_effects := ow_effects,
                ow_techs := owTechsList target_tech_start implant_count techs1,
                noticed := (!ow_effects.isEmpty
                  || !(owTechsList target_tech_start implant_count techs1).isEmpty)
                  && warn_overwrite }

/-- Stage after extension: the overwrite-notice collection over the
extended stores. -/
def implantTechsWithStores (source : DatFileT)
    (source_start target_tech_start implant_count : Nat) (warn_overwrite : Bool)
    (effect_ids : List Int) (effects1 : List EffectT) (techs1 : List TechT) :
    Except String TechImplantResult :=
  match collectOwEffects ((target_tech_start : Int) - source_start)
      effects1 effect_ids with
  | .error msg => .error msg
  | .ok ow_effects =>
      implantTechsFinish source source_start target_tech_start implant_count
        warn_overwrite effect_ids effects1 techs1 ow_effects

/-- Stage after the max computation: read `effects[0]` / `techs[0]` of
the target (Python raises `IndexError` when either store is empty) and
extend both stores. -/
def implantTechsExtend (source target : DatFileT)
    (source_start target_tech_start implant_count : Nat) (warn_overwrite : Bool)
    (effect_ids : List Int) (max_effect_idx : Int) :
    Except String TechImplantResult :=
  match target.effects, target.techs with
  | [], _ => .error "list index out of range"
  | _, [] => .error "list index out of range"
  | placeholder_effect :: _, placeholder_tech :: _ =>
      implantTechsWithStores source source_start target_tech_start implant_count
        warn_overwrite effect_ids
        (ensureLengthInt target.effects (max_effect_idx + 1) placeholder_effect)
        (_ensure_length target.techs (target_tech_start + implant_count) placeholder_tech)

/-- The mutation body of `implant_techs_from_dat` after validation:
collect the referenced effect ids (deduplicated as a Python set), take
the maximum target effect slot, then extend and implant. -/
def implantTechsCore (source target : DatFileT)
    (source_start target_tech_start implant_count : Nat) (warn_overwrite : Bool) :
    Except String TechImplantResult :=
  match collectEffectIds source source_start source.effects.length implant_count with
  | .error msg => .error msg
  | .ok eff_list =>
      match eff_list.dedup with
      | [] => .error "max() arg is an empty sequence"
      | e :: rest =>
          implantTechsExtend source target source_start target_tech_start
            implant_count warn_overwrite (e :: rest)
            (rest.foldl (fun acc y => max acc (y + ((target_tech_start : Int) - source_start)))
              (e + ((target_tech_start : Int) - source_start)))

/-- Embeds `implant_techs_from_dat`: implant techs
`[source_start, source_start+count)` at `target_tech_start`, carrying
the referenced effects along under the same offset. -/
def implant_techs_from_dat (source target : DatFileT)
    (source_start : Nat) (source_end : Option Nat) (count : Option Int)
    (target_tech_start : Nat) (warn_overwrite : Bool) :
    Except String TechImplantResult :=
  match implantCountTechsE source.techs.length source_start source_end count with
  | .error msg => .error msg
  | .ok implant_count =>
      implantTechsCore source target source_start target_tech_start implant_count
        warn_overwrite

/-! ## Concrete sample stores (used by closed witnesses and
counterexamples) -/

/-- A minimal unit whose only interesting reference field is `base_id`. -/
def sampleUnit (i b : Int) : UnitT :=
  { id := i, name := "u", hit_points := 10, copy_id := i, base_id := b,
    dead_unit_id := -1, blood_unit_id := -1, building := none,
    projectile := none, dead_fish := none, creatable := none }

def sampleHeader : Option UnitHeadersT := some { exists_flag := 1, task_list := none }

/-- Sample source store: two units, unit 0 references unit 1 and vice
versa. -/
def wSrcU : DatFileU :=
  { unit_headers := [sampleHeader, sampleHeader],
    civs := [⟨[some (sampleUnit 0 1), some (sampleUnit 1 0)]⟩] }

/-- Sample target store: three slots, slot 1 empty (blank header and
`None` unit), slot 2 occupied; slot 0 references old ID 1. -/
def wTgtU : DatFileU :=
  { unit_headers := [sampleHeader, some { exists_flag := 0, task_list := none }, sampleHeader],
    civs := [⟨[some (sampleUnit 0 1), none, some (sampleUnit 2 7)]⟩] }

def sampleTech (nm : String) (eid : Int) (req : List Int) : TechT :=
  { name := nm, effect_id := eid, required_techs := req, research_time := 30 }

def sampleEffect (nm : String) (p : Int) : EffectT := { name := nm, payload := p }

/-- Sample tech source: tech 1 references effect 0. -/
def wSrcT : DatFileT :=
  { techs := [sampleTech "t0" 0 [], sampleTech "t1" 0 [1, -1]],
    effects := [sampleEffect "e0" 7] }

/-- Sample tech target: one placeholder tech, two effects. -/
def wTgtT : DatFileT :=
  { techs := [sampleTech "p" 0 []],
    effects := [sampleEffect "f0" 1, sampleEffect "f1" 2] }

/-- The expected result of implanting tech 1 of `wSrcT` at slot 2 of
`wTgtT` (offset `D = 1`). -/
def wTechRes : TechImplantResult :=
  { src := wSrcT,
    tgt := { techs := [sampleTech "p" 0 [], sampleTech "p" 0 [],
                       sampleTech "t1" 1 [2, -1]],
             effects := [sampleEffect "f0" 1, sampleEffect "e0" 7] },
    cnt := 1, ow_effects := [(1, "f1")], ow_techs := [(2, "p")],
    noticed := true }

/-! # Lemmas

## The per-unit rewriter -/

theorem remapAnnexes_fst (m : RelocMap) (l : List (Option AnnexT)) :
    (remapAnnexes m l).1 = l.map (Option.map (specRewriteAnnex m)) := by
  induction l with
  | nil => rfl
  | cons hd tl ih =>
      cases hd <;> simp [remapAnnexes, specRewriteAnnex, remapVal, ih]

theorem remapTrainLocations_fst (m : RelocMap) (l : List (Option TrainLocationT)) :
    (remapTrainLocations m l).1 = l.map (Option.map (specRewriteTrainLocation m)) := by
  induction l with
  | nil => rfl
  | cons hd tl ih =>
      cases hd <;> simp [remapTrainLocations, specRewriteTrainLocation, remapVal, ih]

theorem remapBuilding_fst (m : RelocMap) (b : BuildingT) :
    (remapBuilding m b).1 = specRewriteBuilding m b := by
  simp [remapBuilding, specRewriteBuilding, remapVal, remapAnnexes_fst]

/-- Full per-unit description of the rewrite: every enumerated reference
field goes through `remapVal`; all other fields are untouched. -/
theorem remap_unit_eq (m : RelocMap) (u : UnitT) :
    (_remap_unit_id_refs_in_unit m u).1 = specRewriteUnit m u := by
  cases hb : u.building <;> cases hp : u.projectile <;>
    cases hd : u.dead_fish <;> cases hc : u.creatable <;>
    simp [_remap_unit_id_refs_in_unit, remapVal, remapBuilding_fst,
      remapTrainLocations_fst, hb, hp, hd, hc, specRewriteUnit,
      specRewriteBuilding, specRewriteProjectile,
      specRewriteDeadFish, specRewriteCreatable]

/-- Lookup in an offset relocation map: exactly the IDs of
`[s, s+K)` are keys, and each maps to itself plus `t - s`. -/
theorem buildRelocMap_lookup (s t K : Nat) (v : Int) :
    (buildRelocMap s t K).lookup v =
      if (s : Int) ≤ v ∧ v < (s : Int) + K then some (v + ((t : Int) - s)) else none := by
  induction K with
  | zero =>
      rw [buildRelocMap]
      simp only [List.range_zero, List.map_nil, List.lookup_nil]
      rw [if_neg (by omega)]
  | succ k ih =>
      rw [buildRelocMap, List.range_succ, List.map_append, List.lookup_append]
      rw [buildRelocMap] at ih
      rw [ih]
      simp only [List.map_cons, List.map_nil, List.lookup_cons, List.lookup_nil]
      cases hbeq : v == ((s + k : Nat) : Int) with
      | true =>
          have h2 : v = ((s + k : Nat) : Int) := by simpa using hbeq
          rw [if_neg (by omega), if_pos (by omega)]
          simp only [Option.none_or]
          congr 1
          omega
      | false =>
          have h2 : ¬ v = ((s + k : Nat) : Int) := by simpa using hbeq
          by_cases h1 : (s : Int) ≤ v ∧ v < (s : Int) + k
          · rw [if_pos h1, if_pos (by omega)]
            rfl
          · rw [if_neg h1, if_neg (by omega)]
            simp only [Option.none_or]

/-! ## Extension lemmas -/

theorem ensure_length_length (l : List α) (n : Nat) (b : α) :
    (_ensure_length l n b).length = max l.length n := by
  simp [_ensure_length]
  omega

theorem ensure_length_getElem?_of_lt (l : List α) (n : Nat) (b : α) (i : Nat)
    (h : i < l.length) :
    (_ensure_length l n b)[i]? = l[i]? := by
  simp only [_ensure_length]
  rw [List.getElem?_append_left h]

theorem ensure_length_getElem?_pad (l : List α) (n : Nat) (b : α) (i : Nat)
    (h1 : l.length ≤ i) (h2 : i < n) :
    (_ensure_length l n b)[i]? = some b := by
  simp only [_ensure_length]
  rw [List.getElem?_append_right h1, List.getElem?_replicate, if_pos (by omega)]

/-! ## Write-loop lemmas -/

theorem setUnitsAt_getElem? (src : DatFileU) (x : Bool) (m : RelocMap) (si ti : Nat) :
    ∀ (civs : List CivT) (n c : Nat),
      (setUnitsAt src x m si ti n civs)[c]? =
        (civs[c]?).map fun civ =>
          { civ with units := civ.units.set ti (plantedUnit src x m (n + c) si ti) } := by
  intro civs
  induction civs with
  | nil => intro n c; simp [setUnitsAt]
  | cons civ rest ih =>
      intro n c
      cases c with
      | zero => simp [setUnitsAt]
      | succ c' =>
          have h : n + (c' + 1) = (n + 1) + c' := by omega
          simp only [setUnitsAt, List.getElem?_cons_succ, h, ih (n + 1) c']

theorem implantWrites_headers_frame (src : DatFileU) (x : Bool) (m : RelocMap)
    (S T : Nat) :
    ∀ (rem i : Nat) (d : DatFileU) (s : Nat), (s < T + i ∨ T + i + rem ≤ s) →
      (implantWrites src x m S T i rem d).unit_headers[s]? = d.unit_headers[s]? := by
  intro rem
  induction rem with
  | zero => intro i d s _; rfl
  | succ r ih =>
      intro i d s hs
      rw [implantWrites, ih (i + 1) _ s (by omega)]
      simp only [implantStep]
      rw [List.getElem?_set_ne (by omega)]

theorem implantWrites_units_frame (src : DatFileU) (x : Bool) (m : RelocMap)
    (S T : Nat) :
    ∀ (rem i : Nat) (d : DatFileU) (c s : Nat), (s < T + i ∨ T + i + rem ≤ s) →
      ((implantWrites src x m S T i rem d).civs[c]?).map (fun civ => civ.units[s]?)
        = (d.civs[c]?).map (fun civ => civ.units[s]?) := by
  intro rem
  induction rem with
  | zero => intro i d c s _; rfl
  | succ r ih =>
      intro i d c s hs
      rw [implantWrites, ih (i + 1) _ c s (by omega)]
      simp only [implantStep]
      rw [setUnitsAt_getElem?]
      cases h : d.civs[c]? with
      | none => rfl
      | some civ =>
          simp only [Option.map_some']
          rw [List.getElem?_set_ne (by omega)]

theorem implantWrites_headers_length (src : DatFileU) (x : Bool) (m : RelocMap)
    (S T : Nat) :
    ∀ (rem i : Nat) (d : DatFileU),
      (implantWrites src x m S T i rem d).unit_headers.length = d.unit_headers.length := by
  intro rem
  induction rem with
  | zero => intro i d; rfl
  | succ r ih =>
      intro i d
      rw [implantWrites, ih]
      simp [implantStep]

theorem implantWrites_units_length (src : DatFileU) (x : Bool) (m : RelocMap)
    (S T : Nat) :
    ∀ (rem i : Nat) (d : DatFileU) (c : Nat),
      ((implantWrites src x m S T i rem d).civs[c]?).map (fun civ => civ.units.length)
        = (d.civs[c]?).map (fun civ => civ.units.length) := by
  intro rem
  induction rem with
  | zero => intro i d c; rfl
  | succ r ih =>
      intro i d c
      rw [implantWrites, ih]
      simp only [implantStep]
      rw [setUnitsAt_getElem?]
      cases h : d.civs[c]? with
      | none => rfl
      | some civ => simp

theorem implantWrites_headers_at (src : DatFileU) (x : Bool) (m : RelocMap)
    (S T : Nat) :
    ∀ (rem i : Nat) (d : DatFileU) (k : Nat), i ≤ k → k < i + rem →
      T + k < d.unit_headers.length →
      (implantWrites src x m S T i rem d).unit_headers[T + k]?
        = some (plantedHeader src (S + k)) := by
  intro rem
  induction rem with
  | zero => intro i d k h1 h2 h3; omega
  | succ r ih =>
      intro i d k h1 h2 h3
      rw [implantWrites]
      by_cases hk : k = i
      · subst hk
        rw [implantWrites_headers_frame src x m S T r (k + 1) _ (T + k) (by omega)]
        simp only [implantStep]
        rw [List.getElem?_set_eq_of_lt _ h3]
      · apply ih (i + 1) _ k (by omega) (by omega)
        simpa [implantStep] using h3

theorem implantWrites_units_at (src : DatFileU) (x : Bool) (m : RelocMap)
    (S T : Nat) :
    ∀ (rem i : Nat) (d : DatFileU) (k c : Nat) (civ : CivT), i ≤ k → k < i + rem →
      d.civs[c]? = some civ → T + k < civ.units.length →
      ((implantWrites src x m S T i rem d).civs[c]?).map (fun cv => cv.units[T + k]?)
        = some (some (plantedUnit src x m c (S + k) (T + k))) := by
  intro rem
  induction rem with
  | zero => intro i d k c civ h1 h2 _ _; omega
  | succ r ih =>
      intro i d k c civ h1 h2 hc h3
      rw [implantWrites]
      by_cases hk : k = i
      · subst hk
        rw [implantWrites_units_frame src x m S T r (k + 1) _ c (T + k) (by omega)]
        simp only [implantStep]
        rw [setUnitsAt_getElem?, hc]
        simp only [Option.map_some', Nat.zero_add]
        rw [List.getElem?_set_eq_of_lt _ h3]
      · have hc' : (implantStep src x m S T i d).civs[c]?
            = some { civ with units := civ.units.set (T + i) (plantedUnit src x m c (S + i) (T + i)) } := by
          simp only [implantStep]
          rw [setUnitsAt_getElem?, hc]
          simp
        apply ih (i + 1) _ k c _ (by omega) (by omega) hc'
        simpa using h3

/-! ## `implantUnitsCore` characterisation -/

theorem implantUnitsCore_src (source target : DatFileU) (S T K : Nat) (w x : Bool) :
    (implantUnitsCore source target S T K w x).src = source := rfl

theorem implantUnitsCore_cnt (source target : DatFileU) (S T K : Nat) (w x : Bool) :
    (implantUnitsCore source target S T K w x).cnt = K := rfl

theorem implantUnitsCore_headers_frame (source target : DatFileU) (S T K : Nat)
    (w x : Bool) (idx : Nat) (hlt : idx < target.unit_headers.length)
    (hout : idx < T ∨ T + K ≤ idx) :
    (implantUnitsCore source target S T K w x).tgt.unit_headers[idx]?
      = target.unit_headers[idx]? := by
  simp only [implantUnitsCore]
  rw [implantWrites_headers_frame _ _ _ _ _ K 0 _ idx (by omega)]
  exact ensure_length_getElem?_of_lt _ _ _ _ hlt

theorem implantUnitsCore_units_frame (source target : DatFileU) (S T K : Nat)
    (w x : Bool) (c : Nat) (civ : CivT) (idx : Nat)
    (hc : target.civs[c]? = some civ) (hlt : idx < civ.units.length)
    (hout : idx < T ∨ T + K ≤ idx) :
    ((implantUnitsCore source target S T K w x).tgt.civs[c]?).map (fun cv => cv.units[idx]?)
      = some (civ.units[idx]?) := by
  simp only [implantUnitsCore]
  rw [implantWrites_units_frame _ _ _ _ _ K 0 _ c idx (by omega)]
  rw [List.getElem?_map, hc]
  simp only [Option.map_some']
  rw [ensure_length_getElem?_of_lt _ _ _ _ hlt]

theorem implantUnitsCore_headers_at (source target : DatFileU) (S T K : Nat)
    (w x : Bool) (i : Nat) (hi : i < K) :
    (implantUnitsCore source target S T K w x).tgt.unit_headers[T + i]?
      = some (plantedHeader source (S + i)) := by
  simp only [implantUnitsCore]
  apply implantWrites_headers_at _ _ _ _ _ K 0 _ i (by omega) (by omega)
  rw [ensure_length_length]
  omega

theorem implantUnitsCore_units_at (source target : DatFileU) (S T K : Nat)
    (w x : Bool) (c : Nat) (civ : CivT) (i : Nat)
    (hc : target.civs[c]? = some civ) (hi : i < K) :
    ((implantUnitsCore source target S T K w x).tgt.civs[c]?).map (fun cv => cv.units[T + i]?)
      = some (some (plantedUnit source x (buildRelocMap S T K) c (S + i) (T + i))) := by
  simp only [implantUnitsCore]
  apply implantWrites_units_at _ _ _ _ _ K 0 _ i c
    { civ with units := _ensure_length civ.units (T + K) none } (by omega) (by omega)
  · rw [List.getElem?_map, hc]
    rfl
  · rw [ensure_length_length]
    omega

/-! ## Success and failure inversion -/

theorem implant_units_ok_iff (source target : DatFileU) (s : Nat) (e : Option Nat)
    (cnt : Option Int) (T : Nat) (w x : Bool) (res : ImplantResult) :
    implant_units_from_dat source target s e cnt T w x = .ok res ↔
      ∃ K, implantCountUnitsE (nUnits source) s e cnt = .ok K ∧
        res = implantUnitsCore source target s T K w x := by
  unfold implant_units_from_dat
  cases h : implantCountUnitsE (nUnits source) s e cnt with
  | error msg => simp
  | ok K =>
      constructor
      · intro he
        exact ⟨K, rfl, ((Except.ok.injEq _ _).mp he).symm⟩
      · rintro ⟨K', hK', rfl⟩
        cases hK'
        rfl

theorem implant_units_error_iff (source target : DatFileU) (s : Nat) (e : Option Nat)
    (cnt : Option Int) (T : Nat) (w x : Bool) (msg : String) :
    implant_units_from_dat source target s e cnt T w x = .error msg ↔
      implantCountUnitsE (nUnits source) s e cnt = .error msg := by
  unfold implant_units_from_dat
  cases h : implantCountUnitsE (nUnits source) s e cnt with
  | error m => simp
  | ok K => simp

theorem implantCountUnitsE_count_ok_iff (n s : Nat) (e : Option Nat) (k : Int) (K : Nat) :
    implantCountUnitsE n s e (some k) = .ok K ↔
      (s < n ∧ 0 < min k ((n : Int) - s) ∧ (K : Int) = min k ((n : Int) - s)) := by
  unfold implantCountUnitsE
  by_cases hs : s ≥ n
  · rw [if_pos hs]
    constructor
    · intro h
      simp at h
    · intro h
      omega
  · rw [if_neg hs]
    show finishCount (min k ((n : Int) - s)) = Except.ok K ↔ _
    unfold finishCount
    by_cases hm : min k ((n : Int) - s) ≤ 0
    · rw [if_pos hm]
      constructor
      · intro h
        simp at h
      · intro h
        omega
    · rw [if_neg hm]
      constructor
      · intro h
        have hK := (Except.ok.injEq _ _).mp h
        refine ⟨by omega, by omega, by omega⟩
      · intro h
        have hK : K = (min k ((n : Int) - s)).toNat := by omega
        rw [hK]

theorem finishCount_error_exists_iff (ic : Int) :
    (∃ msg, finishCount ic = .error msg) ↔ ic ≤ 0 := by
  unfold finishCount
  by_cases h : ic ≤ 0
  · rw [if_pos h]
    exact ⟨fun _ => h, fun _ => ⟨_, rfl⟩⟩
  · rw [if_neg h]
    constructor
    · rintro ⟨msg, hmsg⟩
      simp at hmsg
    · intro hbad
      omega

theorem implantCountUnitsE_error_exists_iff (n s : Nat) (e : Option Nat) (cnt : Option Int) :
    (∃ msg, implantCountUnitsE n s e cnt = .error msg) ↔
      (n ≤ s ∨ (∃ k, cnt = some k ∧ k ≤ 0) ∨
       (cnt = none ∧ ∃ se, e = some se ∧ (se < s ∨ n ≤ se))) := by
  unfold implantCountUnitsE
  by_cases hs : s ≥ n
  · rw [if_pos hs]
    constructor
    · intro _
      exact Or.inl hs
    · intro _
      exact ⟨_, rfl⟩
  · rw [if_neg hs]
    rcases cnt with _ | k
    · rcases e with _ | se
      · show (∃ msg, finishCount ((n : Int) - s) = .error msg) ↔ _
        rw [finishCount_error_exists_iff]
        constructor
        · intro h
          omega
        · rintro (h | ⟨k, hk, _⟩ | ⟨_, se, hse, _⟩)
          · omega
          · cases hk
          · cases hse
      · show (∃ msg, (if se < s then _ else if se ≥ n then _
            else finishCount ((se : Int) - s + 1)) = Except.error msg) ↔ _
        by_cases h1 : se < s
        · rw [if_pos h1]
          exact ⟨fun _ => Or.inr (Or.inr ⟨rfl, se, rfl, Or.inl h1⟩), fun _ => ⟨_, rfl⟩⟩
        · rw [if_neg h1]
          by_cases h2 : se ≥ n
          · rw [if_pos h2]
            exact ⟨fun _ => Or.inr (Or.inr ⟨rfl, se, rfl, Or.inr h2⟩), fun _ => ⟨_, rfl⟩⟩
          · rw [if_neg h2, finishCount_error_exists_iff]
            constructor
            · intro h
              omega
            · rintro (h | ⟨k, hk, _⟩ | ⟨_, se', hse, hbad⟩)
              · omega
              · cases hk
              · cases hse
                omega
    · show (∃ msg, finishCount (min k ((n : Int) - s)) = .error msg) ↔ _
      rw [finishCount_error_exists_iff]
      constructor
      · intro h
        exact Or.inr (Or.inl ⟨k, rfl, by omega⟩)
      · rintro (h | ⟨k', hk', hk0'⟩ | ⟨hcnt, _⟩)
        · omega
        · cases hk'
          omega
        · cases hcnt

/-- C5 (amended): the error characterisation of the unit implanter.
The `source_end` checks only fire when `count` is not given. -/
theorem implant_units_error_conditions (source target : DatFileU) (s : Nat)
    (e : Option Nat) (cnt : Option Int) (T : Nat) (w x : Bool) :
    (∃ msg, implant_units_from_dat source target s e cnt T w x = .error msg) ↔
      (nUnits source ≤ s ∨ (∃ k, cnt = some k ∧ k ≤ 0) ∨
       (cnt = none ∧ ∃ se, e = some se ∧ (se < s ∨ nUnits source ≤ se))) := by
  rw [← implantCountUnitsE_error_exists_iff (nUnits source) s e cnt]
  constructor
  · rintro ⟨msg, h⟩
    exact ⟨msg, (implant_units_error_iff source target s e cnt T w x msg).mp h⟩
  · rintro ⟨msg, h⟩
    exact ⟨msg, (implant_units_error_iff source target s e cnt T w x msg).mpr h⟩

/-- C5 counterexample: with both `count` and `source_end` given and
`source_end < source_start` (a claimed error condition), the implant
nevertheless succeeds, because `count` takes precedence and the
`source_end` checks are skipped. -/
theorem implant_units_error_conditions_cex :
    (implant_units_from_dat wSrcU wTgtU 1 (some 0) (some 1) 0 true true).isOk = true
      ∧ (0 : Nat) < 1 := ⟨rfl, by decide⟩

/-- C6: when `count` is given it takes precedence over `source_end`
(the result does not depend on `source_end` at all), the implant count
clamps to `min count (source_length - source_start)`, and an
over-large `count` never fails. -/
theorem implant_units_count_precedence_and_clamping (source target : DatFileU)
    (s : Nat) (e e' : Option Nat) (k : Int) (T : Nat) (w x : Bool) :
    (implant_units_from_dat source target s e (some k) T w x
      = implant_units_from_dat source target s e' (some k) T w x) ∧
    (∀ res, implant_units_from_dat source target s e (some k) T w x = .ok res →
      (res.cnt : Int) = min k ((nUnits source : Int) - s)) ∧
    (s < nUnits source → 1 ≤ k →
      (implant_units_from_dat source target s e (some k) T w x).isOk = true) := by
  refine ⟨rfl, ?_, ?_⟩
  · intro res hres
    obtain ⟨K, hK, rfl⟩ := (implant_units_ok_iff source target s e (some k) T w x res).mp hres
    obtain ⟨_, _, hKval⟩ := (implantCountUnitsE_count_ok_iff (nUnits source) s e k K).mp hK
    rw [implantUnitsCore_cnt]
    exact hKval
  · intro hs hk
    have hok : implantCountUnitsE (nUnits source) s e (some k)
        = .ok (min k ((nUnits source : Int) - s)).toNat := by
      apply (implantCountUnitsE_count_ok_iff (nUnits source) s e k _).mpr
      refine ⟨hs, by omega, by omega⟩
    unfold implant_units_from_dat
    rw [hok]
    rfl

/-- C6 witness at concrete inputs: `count = 5` with two different
`source_end` values gives identical results, the count clamps to the
2 available records, and the call succeeds. -/
theorem implant_units_count_precedence_and_clamping_witness :
    (implant_units_from_dat wSrcU wTgtU 0 (some 99) (some 5) 1 true true
      = implant_units_from_dat wSrcU wTgtU 0 (some 0) (some 5) 1 true true) ∧
    ((implantUnitsCore wSrcU wTgtU 0 1 2 true true).cnt : Int)
      = min 5 ((nUnits wSrcU : Int) - 0) ∧
    (implant_units_from_dat wSrcU wTgtU 0 (some 99) (some 5) 1 true true).isOk = true := by
  refine ⟨(implant_units_count_precedence_and_clamping wSrcU wTgtU 0 (some 99) (some 0)
    5 1 true true).1, ?_, ?_⟩
  · exact (implant_units_count_precedence_and_clamping wSrcU wTgtU 0 (some 99) (some 0)
      5 1 true true).2.1 _ rfl
  · exact (implant_units_count_precedence_and_clamping wSrcU wTgtU 0 (some 99) (some 0)
      5 1 true true).2.2 (by decide) (by decide)

/-- C4: a successful unit implant leaves the source untouched, and
every pre-existing target slot outside `[target_start,
target_start+count)` — header and every civ's unit — is unchanged. -/
theorem implant_units_footprint_containment (source target : DatFileU)
    (source_start : Nat) (source_end : Option Nat) (count : Option Int)
    (target_start : Nat) (w x : Bool) (res : ImplantResult)
    (h : implant_units_from_dat source target source_start source_end count
      target_start w x = .ok res) :
    res.src = source ∧
    (∀ idx, idx < target.unit_headers.length →
      (idx < target_start ∨ target_start + res.cnt ≤ idx) →
      res.tgt.unit_headers[idx]? = target.unit_headers[idx]?) ∧
    (∀ (c : Nat) (civ : CivT) (idx : Nat), target.civs[c]? = some civ →
      idx < civ.units.length →
      (idx < target_start ∨ target_start + res.cnt ≤ idx) →
      (res.tgt.civs[c]?).map (fun cv => cv.units[idx]?) = some (civ.units[idx]?)) := by
  obtain ⟨K, hK, rfl⟩ := (implant_units_ok_iff source target source_start source_end
    count target_start w x res).mp h
  refine ⟨rfl, ?_, ?_⟩
  · intro idx hlt hout
    rw [implantUnitsCore_cnt] at hout
    exact implantUnitsCore_headers_frame source target source_start target_start K
      w x idx hlt hout
  · intro c civ idx hc hlt hout
    rw [implantUnitsCore_cnt] at hout
    exact implantUnitsCore_units_frame source target source_start target_start K
      w x c civ idx hc hlt hout

/-! ## Self-id fixing (C2) -/

theorem fixIdStep_getElem?_ne (i j : Nat) (units : List (Option UnitT)) (h : j ≠ i) :
    (fixIdStep i units).1[j]? = units[j]? := by
  unfold fixIdStep
  cases hg : units.get? i with
  | none => rfl
  | some o =>
      cases o with
      | none => rfl
      | some u =>
          show (if u.id ≠ (i : Int)
              then (units.set i (some { u with id := (i : Int) }), 1)
              else (units, 0)).1[j]? = units[j]?
          by_cases hid : u.id ≠ (i : Int)
          · rw [if_pos hid]
            exact List.getElem?_set_ne (by omega)
          · rw [if_neg hid]

theorem fixIdStep_post (i : Nat) (units : List (Option UnitT)) (u' : UnitT)
    (h : (fixIdStep i units).1[i]? = some (some u')) : u'.id = (i : Int) := by
  unfold fixIdStep at h
  cases hg : units.get? i with
  | none =>
      rw [hg] at h
      have h' : units[i]? = some (some u') := h
      rw [List.get?_eq_getElem?] at hg
      rw [hg] at h'
      exact Option.noConfusion h'
  | some o =>
      cases o with
      | none =>
          rw [hg] at h
          have h' : units[i]? = some (some u') := h
          rw [List.get?_eq_getElem?] at hg
          rw [hg] at h'
          have h2 := (Option.some.injEq _ _).mp h'
          exact Option.noConfusion h2
      | some u =>
          rw [hg] at h
          have h' : (if u.id ≠ (i : Int)
              then (units.set i (some { u with id := (i : Int) }), 1)
              else (units, 0)).1[i]? = some (some u') := h
          rw [List.get?_eq_getElem?] at hg
          have hlen : i < units.length := by
            obtain ⟨hl, -⟩ := List.getElem?_eq_some.mp hg
            exact hl
          by_cases hid : u.id ≠ (i : Int)
          · rw [if_pos hid] at h'
            rw [List.getElem?_set_eq_of_lt _ hlen] at h'
            have h2 := (Option.some.injEq _ _).mp h'
            have h3 := (Option.some.injEq _ _).mp h2
            rw [← h3]
          · rw [if_neg hid] at h'
            have h'' : units[i]? = some (some u') := h'
            rw [hg] at h''
            have h2 := (Option.some.injEq _ _).mp h''
            have h3 := (Option.some.injEq _ _).mp h2
            rw [← h3]
            exact not_not.mp hid

theorem fixIdsInCiv_frame : ∀ (indices : List Nat) (units : List (Option UnitT))
    (j : Nat), j ∉ indices → (fixIdsInCiv indices units).1[j]? = units[j]? := by
  intro indices
  induction indices with
  | nil => intro units j _; rfl
  | cons i rest ih =>
      intro units j hj
      rw [fixIdsInCiv]
      rw [ih _ j (fun hmem => hj (List.mem_cons_of_mem _ hmem))]
      exact fixIdStep_getElem?_ne i j units (fun he => hj (he ▸ List.mem_cons_self _ _))

theorem fixIdsInCiv_post : ∀ (indices : List Nat) (units : List (Option UnitT))
    (j : Nat) (u' : UnitT), j ∈ indices →
    (fixIdsInCiv indices units).1[j]? = some (some u') → u'.id = (j : Int) := by
  intro indices
  induction indices with
  | nil => intro units j u' hj _; cases hj
  | cons i rest ih =>
      intro units j u' hj h
      rw [fixIdsInCiv] at h
      by_cases hjr : j ∈ rest
      · exact ih _ j u' hjr h
      · have hji : j = i := by
          cases List.mem_cons.mp hj with
          | inl he => exact he
          | inr hm => exact absurd hm hjr
        subst hji
        rw [fixIdsInCiv_frame rest _ j hjr] at h
        exact fixIdStep_post j units u' h

/-- C2: after a unit implant of count `res.cnt` at `target_start`,
followed by the self-id finalisation pass over the implanted index set,
every non-empty unit at a footprint slot has its `id` equal to the slot
index, in every civ. -/
theorem implant_self_id_alignment (source target : DatFileU)
    (source_start : Nat) (source_end : Option Nat) (count : Option Int)
    (target_start : Nat) (w x : Bool) (res : ImplantResult)
    (h : implant_units_from_dat source target source_start source_end count
      target_start w x = .ok res)
    (c : Nat) (civ : CivT) (idx : Nat) (u : UnitT)
    (hc : (fix_implanted_unit_self_ids res.tgt
      (List.range' target_start res.cnt)).1.civs[c]? = some civ)
    (h1 : target_start ≤ idx) (h2 : idx < target_start + res.cnt)
    (hu : civ.units[idx]? = some (some u)) :
    u.id = (idx : Int) := by
  simp only [fix_implanted_unit_self_ids, List.getElem?_map] at hc
  cases hc0 : res.tgt.civs[c]? with
  | none =>
      rw [hc0] at hc
      cases hc
  | some civ0 =>
      rw [hc0] at hc
      have hciv := (Option.some.injEq _ _).mp hc
      have hmem : idx ∈ List.range' target_start res.cnt :=
        List.mem_range'.mpr ⟨idx - target_start, by omega, by omega⟩
      apply fixIdsInCiv_post (List.range' target_start res.cnt) civ0.units idx u hmem
      rw [← hu, ← hciv]

/-- C2 witness: after implanting 2 units of `wSrcU` at slot 3 of
`wTgtU` and finalising, the unit at slot 3 carries id 3. -/
theorem implant_self_id_alignment_witness :
    (sampleUnit 3 4).id = ((3 : Nat) : Int) := by
  exact implant_self_id_alignment wSrcU wTgtU 0 none none 3 true true
    (implantUnitsCore wSrcU wTgtU 0 3 2 true true) rfl 0 _ 3 (sampleUnit 3 4)
    rfl (by decide) (by decide) rfl

/-! ## Scoped versus global rewrite (C3) -/

theorem remapUnitsList_getElem? (m : RelocMap) :
    ∀ (l : List (Option UnitT)) (i : Nat),
      (remapUnitsList m l).1[i]? =
        (l[i]?).map (Option.map fun u => (_remap_unit_id_refs_in_unit m u).1) := by
  intro l
  induction l with
  | nil => intro i; rfl
  | cons hd tl ih =>
      intro i
      cases i with
      | zero => cases hd <;> simp [remapUnitsList]
      | succ i' =>
          cases hd <;> simp [remapUnitsList, List.getElem?_cons_succ, ih i']

theorem remap_global_at (d : DatFileU) (m : RelocMap) (c idx : Nat) (civ : CivT)
    (u : UnitT) (hc : d.civs[c]? = some civ) (hu : civ.units[idx]? = some (some u)) :
    ((remap_unit_copy_base_ids_global d m).1.civs[c]?).map (fun cv => cv.units[idx]?)
      = some (some (some ((_remap_unit_id_refs_in_unit m u).1))) := by
  simp only [remap_unit_copy_base_ids_global, List.getElem?_map]
  rw [hc]
  simp only [Option.map_some']
  rw [remapUnitsList_getElem?, hu]
  rfl

theorem remapped_base_id (m : RelocMap) (u : UnitT) :
    ((_remap_unit_id_refs_in_unit m u).1).base_id = remapVal m u.base_id := by
  rw [remap_unit_eq]
  rfl

/-- C3: a pre-existing record at a slot outside the implant footprint
is untouched by the implant (so its reference still holds the old ID);
the global rewrite with a union map that contains `old ↦ new` then
rewrites it to the new ID. -/
theorem scoped_misses_global_fixes (source target : DatFileU) (source_start : Nat)
    (source_end : Option Nat) (count : Option Int) (target_start : Nat)
    (w x : Bool) (res : ImplantResult) (m : RelocMap) (c : Nat) (civ : CivT)
    (idx : Nat) (u : UnitT) (old new : Int)
    (h : implant_units_from_dat source target source_start source_end count
      target_start w x = .ok res)
    (hc : target.civs[c]? = some civ)
    (hu : civ.units[idx]? = some (some u))
    (hout : idx < target_start ∨ target_start + res.cnt ≤ idx)
    (hold : u.base_id = old)
    (hnew : m.lookup old = some new) :
    ((res.tgt.civs[c]?).map (fun cv => cv.units[idx]?) = some (some (some u))) ∧
    (((remap_unit_copy_base_ids_global res.tgt m).1.civs[c]?).map
      (fun cv => cv.units[idx]?)
        = some (some (some ((_remap_unit_id_refs_in_unit m u).1)))) ∧
    ((_remap_unit_id_refs_in_unit m u).1).base_id = new := by
  obtain ⟨hlen, -⟩ := List.getElem?_eq_some.mp hu
  obtain ⟨K, hK, hres⟩ := (implant_units_ok_iff source target source_start source_end
    count target_start w x res).mp h
  have hfirst : (res.tgt.civs[c]?).map (fun cv => cv.units[idx]?)
      = some (some (some u)) := by
    rw [hres]
    rw [hres, implantUnitsCore_cnt] at hout
    rw [implantUnitsCore_units_frame source target source_start target_start K
      w x c civ idx hc hlen hout, hu]
  refine ⟨hfirst, ?_, ?_⟩
  · obtain ⟨civ', hciv', hciv'u⟩ := Option.map_eq_some'.mp hfirst
    exact remap_global_at res.tgt m c idx civ' u hciv' hciv'u
  · rw [remapped_base_id, hold]
    simp [remapVal, remapWithCount, hnew]

/-- C3 witness: slot 0 of the target (outside footprint `[1,3)`)
references old ID 1; it still does after the implant, and the global
pass with map `{0↦1, 1↦2}` rewrites it to 2. -/
theorem scoped_misses_global_fixes_witness :
    (((implantUnitsCore wSrcU wTgtU 0 1 2 true true).tgt.civs[0]?).map
        (fun cv => cv.units[0]?) = some (some (some (sampleUnit 0 1)))) ∧
    (((remap_unit_copy_base_ids_global (implantUnitsCore wSrcU wTgtU 0 1 2 true true).tgt
        (buildRelocMap 0 1 2)).1.civs[0]?).map (fun cv => cv.units[0]?)
      = some (some (some ((_remap_unit_id_refs_in_unit (buildRelocMap 0 1 2)
          (sampleUnit 0 1)).1)))) ∧
    ((_remap_unit_id_refs_in_unit (buildRelocMap 0 1 2) (sampleUnit 0 1)).1).base_id
      = 2 := by
  exact scoped_misses_global_fixes wSrcU wTgtU 0 none none 1 true true
    (implantUnitsCore wSrcU wTgtU 0 1 2 true true) (buildRelocMap 0 1 2) 0 _ 0
    (sampleUnit 0 1) 1 2 rfl rfl rfl (by left; decide) rfl (by decide)

/-- C1: the reference rewrite applied during an implant replaces each
enumerated unit-ID reference field through the relocation map —
mapped values are replaced, unmapped values and non-reference fields
are untouched (the record-update equation), `remapVal` is exactly
dictionary lookup with identity fallback, and an offset map
`{s+j ↦ t+j}` maps precisely the IDs of `[s, s+K)` to `old + (t-s)`. -/
theorem unit_ref_rewrite_correct :
    (∀ (m : RelocMap) (u : UnitT),
      (_remap_unit_id_refs_in_unit m u).1 = specRewriteUnit m u) ∧
    (∀ (m : RelocMap) (v : Int),
      remapVal m v = match m.lookup v with | some w => w | none => v) ∧
    (∀ (s t K : Nat) (v : Int),
      (buildRelocMap s t K).lookup v =
        if (s : Int) ≤ v ∧ v < (s : Int) + K then some (v + ((t : Int) - s))
        else none) := by
  refine ⟨remap_unit_eq, ?_, buildRelocMap_lookup⟩
  intro m v
  cases h : m.lookup v <;> simp [remapVal, remapWithCount, h]

/-! ## The consistency checker (C7) -/

theorem checkSlot_mem (stale : List Int) (ci : Nat) (units : List (Option UnitT))
    (ui : Nat) (x : Issue) :
    x ∈ checkSlot stale ci units ui ↔
      ∃ u, units.get? ui = some (some u) ∧
        ((x = (ui, ci, "id", u.id, s!"单位[{ui}] 文明{ci} .id={u.id}，应为 {ui}")
            ∧ u.id ≠ (ui : Int)) ∨
         (∃ pv, pv ∈ _iter_unit_id_refs_for_check (some u) ∧ pv.2 ∈ stale ∧
            x = (ui, ci, pv.1, pv.2,
              s!"单位[{ui}] 文明{ci} {pv.1}={pv.2}，已迁移区间不应再引用"))) := by
  unfold checkSlot
  cases hg : units.get? ui with
  | none => simp
  | some o =>
      cases o with
      | none => simp
      | some u =>
          simp only [List.mem_append, List.mem_filterMap, Option.some.injEq]
          constructor
          · rintro (hid | href)
            · by_cases hne : u.id ≠ (ui : Int)
              · rw [if_pos hne] at hid
                refine ⟨u, rfl, Or.inl ⟨?_, hne⟩⟩
                simpa using hid
              · rw [if_neg hne] at hid
                cases hid
            · obtain ⟨pv, hpv, hx⟩ := href
              by_cases hin : pv.2 ∈ stale
              · rw [if_pos hin] at hx
                exact ⟨u, rfl, Or.inr ⟨pv, hpv, hin, ((Option.some.injEq _ _).mp hx).symm⟩⟩
              · rw [if_neg hin] at hx
                cases hx
          · rintro ⟨u', rfl, hrest⟩
            cases hrest with
            | inl hid =>
                left
                rw [if_pos hid.2]
                simpa using hid.1
            | inr href =>
                obtain ⟨pv, hpv, hin, hx⟩ := href
                right
                exact ⟨pv, hpv, by rw [if_pos hin, hx]⟩

theorem checkCivs_mem (indices : List Nat) (stale : List Int) :
    ∀ (civs : List CivT) (n : Nat) (x : Issue),
      x ∈ checkCivs indices stale n civs ↔
        ∃ k civ, civs[k]? = some civ ∧
          ∃ ui, ui ∈ indices ∧ x ∈ checkSlot stale (n + k) civ.units ui := by
  intro civs
  induction civs with
  | nil =>
      intro n x
      simp [checkCivs]
  | cons civ rest ih =>
      intro n x
      rw [checkCivs]
      simp only [List.mem_append, List.mem_flatMap, ih (n + 1)]
      constructor
      · rintro (⟨ui, hui, hx⟩ | ⟨k, civ', hciv', ui, hui, hx⟩)
        · exact ⟨0, civ, by simp, ui, hui, by simpa using hx⟩
        · refine ⟨k + 1, civ', by simpa using hciv', ui, hui, ?_⟩
          have hnk : n + 1 + k = n + (k + 1) := by omega
          rw [← hnk]
          exact hx
      · rintro ⟨k, civ', hciv', ui, hui, hx⟩
        cases k with
        | zero =>
            left
            have hc : civ = civ' := by
              simpa using hciv'
            subst hc
            exact ⟨ui, hui, by simpa using hx⟩
        | succ k' =>
            right
            refine ⟨k', civ', by simpa using hciv', ui, hui, ?_⟩
            have hnk : n + 1 + k' = n + (k' + 1) := by omega
            rw [hnk]
            exact hx

/-- C7: the checker's issue list contains exactly, for every civ and
every non-empty record at an implanted slot, one self-id mismatch issue
and one issue per enumerated reference field whose value is stale;
slots outside the implanted set contribute nothing. -/
theorem check_coherence_issues_exact (data : DatFileU) (indices : List Nat)
    (stale : List Int) (ui ci : Nat) (path : String) (v : Int) (msg : String) :
    (ui, ci, path, v, msg) ∈ check_unit_id_coherence data indices stale ↔
      ∃ civ u, data.civs[ci]? = some civ ∧ ui ∈ indices ∧
        civ.units.get? ui = some (some u) ∧
        ((path = "id" ∧ v = u.id ∧ u.id ≠ (ui : Int) ∧
            msg = s!"单位[{ui}] 文明{ci} .id={u.id}，应为 {ui}") ∨
         ((path, v) ∈ _iter_unit_id_refs_for_check (some u) ∧ v ∈ stale ∧
            msg = s!"单位[{ui}] 文明{ci} {path}={v}，已迁移区间不应再引用")) := by
  unfold check_unit_id_coherence
  rw [checkCivs_mem indices stale data.civs 0 (ui, ci, path, v, msg)]
  constructor
  · rintro ⟨k, civ, hciv, ui', hui', hx⟩
    rw [checkSlot_mem] at hx
    obtain ⟨u, hu, hrest⟩ := hx
    cases hrest with
    | inl hid =>
        obtain ⟨hx, hne⟩ := hid
        simp only [Prod.mk.injEq, Nat.zero_add] at hx
        obtain ⟨h1, h2, h3, h4, h5⟩ := hx
        subst h1
        subst h2
        subst h3
        subst h4
        exact ⟨civ, u, hciv, hui', hu, Or.inl ⟨rfl, rfl, hne, h5⟩⟩
    | inr href =>
        obtain ⟨pv, hpv, hin, hx⟩ := href
        simp only [Prod.mk.injEq, Nat.zero_add] at hx
        obtain ⟨h1, h2, h3, h4, h5⟩ := hx
        subst h1
        subst h2
        subst h3
        subst h4
        exact ⟨civ, u, hciv, hui', hu, Or.inr ⟨by simpa using hpv, hin, h5⟩⟩
  · rintro ⟨civ, u, hciv, hui, hu, hrest⟩
    refine ⟨ci, civ, hciv, ui, hui, ?_⟩
    rw [Nat.zero_add, checkSlot_mem]
    refine ⟨u, hu, ?_⟩
    cases hrest with
    | inl hid =>
        obtain ⟨h1, h2, h3, h4⟩ := hid
        subst h1
        subst h2
        exact Or.inl ⟨by rw [h4], h3⟩
    | inr href =>
        obtain ⟨hpv, hin, hmsg⟩ := href
        exact Or.inr ⟨(path, v), hpv, hin, by rw [hmsg]⟩

/-! ## Idempotence of the global rewrite (C10) -/

theorem lookup_mem {m : RelocMap} {v w : Int} (h : m.lookup v = some w) : (v, w) ∈ m := by
  induction m with
  | nil => cases h
  | cons p rest ih =>
      obtain ⟨k, b⟩ := p
      by_cases hbeq : v = k
      · subst hbeq
        rw [List.lookup_cons_self] at h
        have hb := (Option.some.injEq _ _).mp h
        rw [← hb]
        exact List.mem_cons_self _ _
      · rw [List.lookup_cons] at h
        have hfalse : (v == k) = false := by simp [hbeq]
        simp only [hfalse] at h
        exact List.mem_cons_of_mem _ (ih h)

/-- Key step: when no mapped value is itself a key, rewriting an
already-rewritten value is the identity and counts nothing. -/
theorem remapWithCount_idem (m : RelocMap) (hm : ∀ p ∈ m, m.lookup p.2 = none)
    (v : Int) : remapWithCount m (remapVal m v) = (remapVal m v, 0) := by
  unfold remapVal remapWithCount
  cases h : m.lookup v with
  | none => simp [h]
  | some w =>
      have hw : m.lookup w = none := hm (v, w) (lookup_mem h)
      simp [h, hw]

theorem remapAnnexes_idem (m : RelocMap) (hm : ∀ p ∈ m, m.lookup p.2 = none) :
    ∀ l : List (Option AnnexT),
      remapAnnexes m ((remapAnnexes m l).1) = ((remapAnnexes m l).1, 0) := by
  intro l
  induction l with
  | nil => rfl
  | cons hd tl ih =>
      cases hd with
      | none => simp [remapAnnexes, ih]
      | some a =>
          have h := remapWithCount_idem m hm a.unit_id
          simp [remapAnnexes, remapVal] at h ⊢
          simp [h, ih]

theorem remapTrainLocations_idem (m : RelocMap) (hm : ∀ p ∈ m, m.lookup p.2 = none) :
    ∀ l : List (Option TrainLocationT),
      remapTrainLocations m ((remapTrainLocations m l).1)
        = ((remapTrainLocations m l).1, 0) := by
  intro l
  induction l with
  | nil => rfl
  | cons hd tl ih =>
      cases hd with
      | none => simp [remapTrainLocations, ih]
      | some tl0 =>
          have h := remapWithCount_idem m hm tl0.unit_id
          simp [remapTrainLocations, remapVal] at h ⊢
          simp [h, ih]

theorem remapBuilding_idem (m : RelocMap) (hm : ∀ p ∈ m, m.lookup p.2 = none)
    (b : BuildingT) :
    remapBuilding m ((remapBuilding m b).1) = ((remapBuilding m b).1, 0) := by
  have h1 := remapWithCount_idem m hm b.stack_unit_id
  have h2 := remapWithCount_idem m hm b.head_unit
  have h3 := remapWithCount_idem m hm b.transform_unit
  have h4 := remapWithCount_idem m hm b.pile_unit
  have h5 := remapAnnexes_idem m hm b.annexes
  simp only [remapVal] at h1 h2 h3 h4
  simp [remapBuilding, h1, h2, h3, h4, h5]

theorem remap_unit_idem (m : RelocMap) (hm : ∀ p ∈ m, m.lookup p.2 = none)
    (u : UnitT) :
    _remap_unit_id_refs_in_unit m ((_remap_unit_id_refs_in_unit m u).1)
      = ((_remap_unit_id_refs_in_unit m u).1, 0) := by
  have h1 := remapWithCount_idem m hm u.copy_id
  have h2 := remapWithCount_idem m hm u.base_id
  have h3 := remapWithCount_idem m hm u.dead_unit_id
  have h4 := remapWithCount_idem m hm u.blood_unit_id
  simp only [remapVal] at h1 h2 h3 h4
  have hgen : ∀ v, remapWithCount m ((remapWithCount m v).1) = ((remapWithCount m v).1, 0) := by
    intro v
    have := remapWithCount_idem m hm v
    simpa [remapVal] using this
  cases hb : u.building <;> cases hp : u.projectile <;>
    cases hd : u.dead_fish <;> cases hc : u.creatable <;>
    simp [_remap_unit_id_refs_in_unit, hb, hp, hd, hc, h1, h2, h3, h4,
      remapBuilding_idem m hm, remapTrainLocations_idem m hm, hgen]

theorem remapUnitsList_idem (m : RelocMap) (hm : ∀ p ∈ m, m.lookup p.2 = none) :
    ∀ l : List (Option UnitT),
      remapUnitsList m ((remapUnitsList m l).1) = ((remapUnitsList m l).1, 0) := by
  intro l
  induction l with
  | nil => rfl
  | cons hd tl ih =>
      cases hd with
      | none => simp [remapUnitsList, ih]
      | some u => simp [remapUnitsList, ih, remap_unit_idem m hm u]

/-- C10: when the relocation map's values are disjoint from its keys
(any pure-offset migration with non-overlapping ranges), the global
rewrite is idempotent: a second run changes nothing and reports 0. -/
theorem remap_global_idempotent (d : DatFileU) (m : RelocMap)
    (hm : ∀ p ∈ m, m.lookup p.2 = none) :
    remap_unit_copy_base_ids_global ((remap_unit_copy_base_ids_global d m).1) m
      = ((remap_unit_copy_base_ids_global d m).1, 0) := by
  unfold remap_unit_copy_base_ids_global
  simp only [List.map_map, Function.comp]
  have hfst : ∀ civ : CivT,
      (remapUnitsList m ((remapUnitsList m civ.units).1)).1
        = (remapUnitsList m civ.units).1 := by
    intro civ
    rw [remapUnitsList_idem m hm civ.units]
  have hsnd : ∀ civ : CivT,
      (remapUnitsList m ((remapUnitsList m civ.units).1)).2 = 0 := by
    intro civ
    rw [remapUnitsList_idem m hm civ.units]
  refine Prod.ext ?_ ?_
  · show ({ d with civs := _ } : DatFileU) = { d with civs := _ }
    congr 1
    apply List.map_congr_left
    intro civ _
    simp [hfst civ]
  · show (List.map _ d.civs).sum = 0
    apply List.sum_eq_zero
    intro x hx
    obtain ⟨civ, -, hcx⟩ := List.mem_map.mp hx
    rw [← hcx]
    exact hsnd civ

/-- C10 witness: the global rewrite with map `{0 ↦ 3}` (values disjoint
from keys) over the sample target is idempotent. -/
theorem remap_global_idempotent_witness :
    remap_unit_copy_base_ids_global
        ((remap_unit_copy_base_ids_global wTgtU [((0 : Int), 3)]).1) [((0 : Int), 3)]
      = ((remap_unit_copy_base_ids_global wTgtU [((0 : Int), 3)]).1, 0) :=
  remap_global_idempotent wTgtU [((0 : Int), 3)] (by decide)

/-! ## Tech implanter lemmas (C8, C9) -/

theorem implantTechsFinish_ok_inv {source : DatFileT} {sS tS K : Nat} {warn : Bool}
    {effect_ids : List Int} {effects1 : List EffectT} {techs1 : List TechT}
    {ow : List (Int × String)} {res : TechImplantResult}
    (h : implantTechsFinish source sS tS K warn effect_ids effects1 techs1 ow = .ok res) :
    ∃ effects2 techs2,
      implantEffects source ((tS : Int) - sS) effect_ids effects1 = .ok effects2 ∧
      implantTechWrites source sS tS ((tS : Int) - sS) (sS + K - 1) 0 K techs1
        = .ok techs2 ∧
      res = { src := source, tgt := { techs := techs2, effects := effects2 },
              cnt := K, ow_effects := ow,
              ow_techs := owTechsList tS K techs1,
              noticed := (!ow.isEmpty || !(owTechsList tS K techs1).isEmpty) && warn } := by
  unfold implantTechsFinish at h
  cases he : implantEffects source ((tS : Int) - sS) effect_ids effects1 with
  | error msg =>
      rw [he] at h
      simp at h
  | ok effects2 =>
      rw [he] at h
      cases ht : implantTechWrites source sS tS ((tS : Int) - sS) (sS + K - 1) 0 K techs1 with
      | error msg =>
          rw [ht] at h
          simp at h
      | ok techs2 =>
          rw [ht] at h
          simp only at h
          exact ⟨effects2, techs2, rfl, rfl, ((Except.ok.injEq _ _).mp h).symm⟩

theorem implantTechsWithStores_ok_inv {source : DatFileT} {sS tS K : Nat} {warn : Bool}
    {effect_ids : List Int} {effects1 : List EffectT} {techs1 : List TechT}
    {res : TechImplantResult}
    (h : implantTechsWithStores source sS tS K warn effect_ids effects1 techs1 = .ok res) :
    ∃ ow, collectOwEffects ((tS : Int) - sS) effects1 effect_ids = .ok ow ∧
      implantTechsFinish source sS tS K warn effect_ids effects1 techs1 ow = .ok res := by
  unfold implantTechsWithStores at h
  cases hc : collectOwEffects ((tS : Int) - sS) effects1 effect_ids with
  | error msg =>
      rw [hc] at h
      simp at h
  | ok ow =>
      rw [hc] at h
      exact ⟨ow, rfl, h⟩

theorem implantTechsExtend_ok_inv {source target : DatFileT} {sS tS K : Nat}
    {warn : Bool} {effect_ids : List Int} {max_effect_idx : Int}
    {res : TechImplantResult}
    (h : implantTechsExtend source target sS tS K warn effect_ids max_effect_idx
      = .ok res) :
    ∃ pe effTail pt techTail, target.effects = pe :: effTail ∧
      target.techs = pt :: techTail ∧
      implantTechsWithStores source sS tS K warn effect_ids
        (ensureLengthInt target.effects (max_effect_idx + 1) pe)
        (_ensure_length target.techs (tS + K) pt) = .ok res := by
  unfold implantTechsExtend at h
  cases heff : target.effects with
  | nil =>
      rw [heff] at h
      simp at h
  | cons pe effTail =>
      cases htech : target.techs with
      | nil =>
          rw [heff, htech] at h
          simp at h
      | cons pt techTail =>
          rw [heff, htech] at h
          exact ⟨pe, effTail, pt, techTail, rfl, rfl, h⟩

theorem implantTechsCore_ok_inv {source target : DatFileT} {sS tS K : Nat}
    {warn : Bool} {res : TechImplantResult}
    (h : implantTechsCore source target sS tS K warn = .ok res) :
    ∃ eff_list e rest,
      collectEffectIds source sS source.effects.length K = .ok eff_list ∧
      eff_list.dedup = e :: rest ∧
      implantTechsExtend source target sS tS K warn (e :: rest)
        (rest.foldl (fun acc y => max acc (y + ((tS : Int) - sS)))
          (e + ((tS : Int) - sS))) = .ok res := by
  unfold implantTechsCore at h
  cases hc : collectEffectIds source sS source.effects.length K with
  | error msg =>
      rw [hc] at h
      simp at h
  | ok eff_list =>
      rw [hc] at h
      have h' : (match eff_list.dedup with
          | [] => (Except.error "max() arg is an empty sequence" :
              Except String TechImplantResult)
          | e :: rest =>
              implantTechsExtend source target sS tS K warn (e :: rest)
                (rest.foldl (fun acc y => max acc (y + ((tS : Int) - sS)))
                  (e + ((tS : Int) - sS)))) = .ok res := h
      cases hd : eff_list.dedup with
      | nil =>
          rw [hd] at h'
          simp at h'
      | cons e rest =>
          rw [hd] at h'
          exact ⟨eff_list, e, rest, rfl, hd, h'⟩

theorem implant_techs_ok_inv {source target : DatFileT} {sS : Nat}
    {sEnd : Option Nat} {cnt : Option Int} {tS : Nat} {warn : Bool}
    {res : TechImplantResult}
    (h : implant_techs_from_dat source target sS sEnd cnt tS warn = .ok res) :
    ∃ K, implantCountTechsE source.techs.length sS sEnd cnt = .ok K ∧
      implantTechsCore source target sS tS K warn = .ok res := by
  unfold implant_techs_from_dat at h
  cases hc : implantCountTechsE source.techs.length sS sEnd cnt with
  | error msg =>
      rw [hc] at h
      simp at h
  | ok K =>
      rw [hc] at h
      exact ⟨K, rfl, h⟩

theorem pySet_ok (l : List α) (i : Int) (x : α) (h0 : 0 ≤ i)
    (hlt : i < (l.length : Int)) : pySet l i x = .ok (l.set i.toNat x) := by
  unfold pySet pyNorm
  rw [if_pos h0, if_pos hlt]

theorem pySet_ok_inv {l : List α} {i : Int} {x : α} {out : List α}
    (h : pySet l i x = .ok out) (h0 : 0 ≤ i) : out = l.set i.toNat x := by
  unfold pySet pyNorm at h
  rw [if_pos h0] at h
  by_cases hlt : i < (l.length : Int)
  · rw [if_pos hlt] at h
    exact ((Except.ok.injEq _ _).mp h).symm
  · rw [if_neg hlt] at h
    simp at h

theorem pySet_ok_shape {α : Type} {l : List α} {i : Int} {x : α} {out : List α}
    (h : pySet l i x = .ok out) : ∃ j, out = l.set j x := by
  unfold pySet at h
  cases hn : pyNorm l.length i with
  | none =>
      rw [hn] at h
      simp at h
  | some j =>
      rw [hn] at h
      exact ⟨j, ((Except.ok.injEq _ _).mp h).symm⟩

theorem collectEffectIds_spec (src : DatFileT) (sS nE : Nat) :
    ∀ (K : Nat) (lst : List Int), collectEffectIds src sS nE K = .ok lst →
      (∀ y ∈ lst, 0 ≤ y ∧ y < (nE : Int)) ∧
      (∀ i, i < K → ∀ tech, src.techs.get? (sS + i) = some tech →
        tech.effect_id ∈ lst) := by
  intro K
  induction K with
  | zero =>
      intro lst h
      have h0 : (Except.ok [] : Except String (List Int)) = .ok lst := h
      have hl : lst = [] := ((Except.ok.injEq _ _).mp h0).symm
      subst hl
      exact ⟨by simp, by intro i hi; omega⟩
  | succ k ih =>
      intro lst h
      unfold collectEffectIds at h
      cases hc : collectEffectIds src sS nE k with
      | error msg =>
          rw [hc] at h
          simp at h
      | ok prev =>
          rw [hc] at h
          have h1 : (match src.techs.get? (sS + k) with
              | none => (Except.error "tech index out of range" :
                  Except String (List Int))
              | some tech =>
                  if tech.effect_id < 0 ∨ tech.effect_id ≥ (nE : Int) then
                    Except.error s!"源科技的 effect_id={tech.effect_id} 越界：源模组效果数量为 {nE}"
                  else Except.ok (prev ++ [tech.effect_id])) = .ok lst := h
          cases hg : src.techs.get? (sS + k) with
          | none =>
              rw [hg] at h1
              simp at h1
          | some tech =>
              rw [hg] at h1
              have h2 : (if tech.effect_id < 0 ∨ tech.effect_id ≥ (nE : Int) then
                  Except.error s!"源科技的 effect_id={tech.effect_id} 越界：源模组效果数量为 {nE}"
                else Except.ok (prev ++ [tech.effect_id])) = .ok lst := h1
              by_cases hb : tech.effect_id < 0 ∨ tech.effect_id ≥ (nE : Int)
              · rw [if_pos hb] at h2
                simp at h2
              · rw [if_neg hb] at h2
                have hlst : lst = prev ++ [tech.effect_id] :=
                  ((Except.ok.injEq _ _).mp h2).symm
                obtain ⟨ihb, ihm⟩ := ih prev hc
                subst hlst
                constructor
                · intro y hy
                  rcases List.mem_append.mp hy with hy | hy
                  · exact ihb y hy
                  · have hye : y = tech.effect_id := by simpa using hy
                    subst hye
                    omega
                · intro i hi tech' hg'
                  by_cases hik : i < k
                  · exact List.mem_append.mpr (Or.inl (ihm i hik tech' hg'))
                  · have hik' : i = k := by omega
                    subst hik'
                    rw [hg] at hg'
                    have htt : tech = tech' := (Option.some.injEq _ _).mp hg'
                    subst htt
                    exact List.mem_append.mpr (Or.inr (by simp))

theorem foldl_max_bounds (D : Int) :
    ∀ (l : List Int) (acc : Int),
      acc ≤ l.foldl (fun a y => max a (y + D)) acc ∧
      ∀ y ∈ l, y + D ≤ l.foldl (fun a y => max a (y + D)) acc := by
  intro l
  induction l with
  | nil =>
      intro acc
      exact ⟨le_refl _, by simp⟩
  | cons z rest ih =>
      intro acc
      rw [List.foldl_cons]
      constructor
      · exact le_trans (le_max_left _ _) (ih (max acc (z + D))).1
      · intro y hy
        rcases List.mem_cons.mp hy with rfl | hy'
        · exact le_trans (le_max_right _ _) (ih (max acc (y + D))).1
        · exact (ih (max acc (z + D))).2 y hy'

theorem implantEffects_length {src : DatFileT} {D : Int} :
    ∀ (eids : List Int) (l out : List EffectT),
      implantEffects src D eids l = .ok out → out.length = l.length := by
  intro eids
  induction eids with
  | nil =>
      intro l out h
      have h0 : (Except.ok l : Except String (List EffectT)) = .ok out := h
      rw [((Except.ok.injEq _ _).mp h0).symm]
  | cons e rest ih =>
      intro l out h
      unfold implantEffects at h
      cases hg : src.effects.get? e.toNat with
      | none =>
          rw [hg] at h
          simp at h
      | some eff =>
          rw [hg] at h
          have h1 : (match pySet l (e + D) eff with
              | .error msg => (.error msg : Except String (List EffectT))
              | .ok effects1 => implantEffects src D rest effects1) = .ok out := h
          cases hs : pySet l (e + D) eff with
          | error msg =>
              rw [hs] at h1
              simp at h1
          | ok l1 =>
              rw [hs] at h1
              have h2 : implantEffects src D rest l1 = .ok out := h1
              obtain ⟨j, hj⟩ := pySet_ok_shape hs
              rw [ih l1 out h2, hj]
              simp

theorem implantEffects_frame {src : DatFileT} {D : Int} :
    ∀ (eids : List Int) (l out : List EffectT) (j : Nat),
      implantEffects src D eids l = .ok out →
      (∀ y ∈ eids, (y + D).toNat ≠ j) →
      (∀ y ∈ eids, 0 ≤ y + D) →
      out[j]? = l[j]? := by
  intro eids
  induction eids with
  | nil =>
      intro l out j h _ _
      have h0 : (Except.ok l : Except String (List EffectT)) = .ok out := h
      rw [((Except.ok.injEq _ _).mp h0).symm]
  | cons e rest ih =>
      intro l out j h hne hpos
      unfold implantEffects at h
      cases hg : src.effects.get? e.toNat with
      | none =>
          rw [hg] at h
          simp at h
      | some eff =>
          rw [hg] at h
          have h1 : (match pySet l (e + D) eff with
              | .error msg => (.error msg : Except String (List EffectT))
              | .ok effects1 => implantEffects src D rest effects1) = .ok out := h
          cases hs : pySet l (e + D) eff with
          | error msg =>
              rw [hs] at h1
              simp at h1
          | ok l1 =>
              rw [hs] at h1
              have h2 : implantEffects src D rest l1 = .ok out := h1
              rw [ih l1 out j h2
                (fun y hy => hne y (List.mem_cons_of_mem _ hy))
                (fun y hy => hpos y (List.mem_cons_of_mem _ hy))]
              have hl1 : l1 = l.set (e + D).toNat eff :=
                pySet_ok_inv hs (hpos e (List.mem_cons_self _ _))
              rw [hl1]
              exact List.getElem?_set_ne (hne e (List.mem_cons_self _ _))

theorem implantEffects_at {src : DatFileT} {D : Int} :
    ∀ (eids : List Int) (l out : List EffectT) (y : Int) (eff : EffectT),
      implantEffects src D eids l = .ok out →
      eids.Nodup →
      (∀ z ∈ eids, 0 ≤ z + D) →
      y ∈ eids →
      src.effects[y.toNat]? = some eff →
      (y + D).toNat < l.length →
      out[(y + D).toNat]? = some eff := by
  intro eids
  induction eids with
  | nil =>
      intro l out y eff _ _ _ hy
      cases hy
  | cons e rest ih =>
      intro l out y eff h hnd hpos hy hsrc hlt
      unfold implantEffects at h
      cases hg : src.effects.get? e.toNat with
      | none =>
          rw [hg] at h
          simp at h
      | some eff0 =>
          rw [hg] at h
          have h1 : (match pySet l (e + D) eff0 with
              | .error msg => (.error msg : Except String (List EffectT))
              | .ok effects1 => implantEffects src D rest effects1) = .ok out := h
          cases hs : pySet l (e + D) eff0 with
          | error msg =>
              rw [hs] at h1
              simp at h1
          | ok l1 =>
              rw [hs] at h1
              have h2 : implantEffects src D rest l1 = .ok out := h1
              have he0 : 0 ≤ e + D := hpos e (List.mem_cons_self _ _)
              have hl1 : l1 = l.set (e + D).toNat eff0 := pySet_ok_inv hs he0
              rcases List.mem_cons.mp hy with rfl | hyr
              · have hnotin : y ∉ rest := (List.nodup_cons.mp hnd).1
                rw [implantEffects_frame rest l1 out (y + D).toNat h2 ?hfr ?hps]
                case hfr =>
                  intro z hz hcon
                  have hz0 : 0 ≤ z + D := hpos z (List.mem_cons_of_mem _ hz)
                  have hzy : z = y := by omega
                  exact hnotin (hzy ▸ hz)
                case hps =>
                  exact fun z hz => hpos z (List.mem_cons_of_mem _ hz)
                rw [hl1]
                rw [List.getElem?_set_eq_of_lt _ hlt]
                rw [List.get?_eq_getElem?] at hg
                rw [hg] at hsrc
                rw [(Option.some.injEq _ _).mp hsrc]
              · apply ih l1 out y eff h2 (List.nodup_cons.mp hnd).2
                  (fun z hz => hpos z (List.mem_cons_of_mem _ hz)) hyr hsrc
                rw [hl1]
                simpa using hlt

theorem implantTechWrites_length {src : DatFileT} {sS tS : Nat} {D : Int}
    {sE : Nat} :
    ∀ (rem i : Nat) (l out : List TechT),
      implantTechWrites src sS tS D sE i rem l = .ok out →
      out.length = l.length := by
  intro rem
  induction rem with
  | zero =>
      intro i l out h
      have h0 : (Except.ok l : Except String (List TechT)) = .ok out := h
      rw [((Except.ok.injEq _ _).mp h0).symm]
  | succ r ih =>
      intro i l out h
      unfold implantTechWrites at h
      cases hg : src.techs.get? (sS + i) with
      | none =>
          rw [hg] at h
          simp at h
      | some tech =>
          rw [hg] at h
          have h2 : implantTechWrites src sS tS D sE (i + 1) r
              (l.set (tS + i)
                { tech with
                    effect_id := tech.effect_id + D,
                    required_techs := tech.required_techs.map fun r =>
                      if (sS : Int) ≤ r ∧ r ≤ (sE : Int) then r + D else r })
              = .ok out := h
          rw [ih (i + 1) _ out h2]
          simp

theorem implantTechWrites_frame {src : DatFileT} {sS tS : Nat} {D : Int}
    {sE : Nat} :
    ∀ (rem i : Nat) (l out : List TechT) (j : Nat),
      implantTechWrites src sS tS D sE i rem l = .ok out →
      j < tS + i → out[j]? = l[j]? := by
  intro rem
  induction rem with
  | zero =>
      intro i l out j h _
      have h0 : (Except.ok l : Except String (List TechT)) = .ok out := h
      rw [((Except.ok.injEq _ _).mp h0).symm]
  | succ r ih =>
      intro i l out j h hj
      unfold implantTechWrites at h
      cases hg : src.techs.get? (sS + i) with
      | none =>
          rw [hg] at h
          simp at h
      | some tech =>
          rw [hg] at h
          have h2 : implantTechWrites src sS tS D sE (i + 1) r
              (l.set (tS + i)
                { tech with
                    effect_id := tech.effect_id + D,
                    required_techs := tech.required_techs.map fun r =>
                      if (sS : Int) ≤ r ∧ r ≤ (sE : Int) then r + D else r })
              = .ok out := h
          rw [ih (i + 1) _ out j h2 (by omega)]
          exact List.getElem?_set_ne (by omega)

theorem implantTechWrites_at {src : DatFileT} {sS tS : Nat} {D : Int} {sE : Nat} :
    ∀ (rem i : Nat) (l out : List TechT) (k : Nat) (tech : TechT),
      implantTechWrites src sS tS D sE i rem l = .ok out →
      i ≤ k → k < i + rem →
      src.techs.get? (sS + k) = some tech →
      tS + k < l.length →
      out[tS + k]? = some { tech with
        effect_id := tech.effect_id + D,
        required_techs := tech.required_techs.map fun r =>
          if (sS : Int) ≤ r ∧ r ≤ (sE : Int) then r + D else r } := by
  intro rem
  induction rem with
  | zero =>
      intro i l out k tech _ h1 h2
      omega
  | succ r ih =>
      intro i l out k tech h h1 h2 hg hlt
      unfold implantTechWrites at h
      cases hg0 : src.techs.get? (sS + i) with
      | none =>
          rw [hg0] at h
          simp at h
      | some tech0 =>
          rw [hg0] at h
          have hh : implantTechWrites src sS tS D sE (i + 1) r
              (l.set (tS + i)
                { tech0 with
                    effect_id := tech0.effect_id + D,
                    required_techs := tech0.required_techs.map fun r =>
                      if (sS : Int) ≤ r ∧ r ≤ (sE : Int) then r + D else r })
              = .ok out := h
          by_cases hk : k = i
          · subst hk
            have htt : tech0 = tech := by
              rw [hg0] at hg
              exact (Option.some.injEq _ _).mp hg
            subst htt
            rw [implantTechWrites_frame r (k + 1) _ out (tS + k) hh (by omega)]
            rw [List.getElem?_set_eq_of_lt _ hlt]
          · apply ih (i + 1) _ out k tech hh (by omega) (by omega) hg
            simpa using hlt

/-- C8 (amended): for a successful tech implant with
`source_start ≤ target_tech_start` (so every computed effect slot
`old + D` is non-negative — the behaviour for negative slots diverges,
see the counterexample), every migrated tech's referenced effect is
deep-copied to effect slot `old + D` and the implanted tech's
`effect_id` pointer is rewritten to `old + D`, the effects store having
been extended to cover the highest such slot. -/
theorem tech_implant_effect_offset (source target : DatFileT) (sS : Nat)
    (sEnd : Option Nat) (cnt : Option Int) (tS : Nat) (warn : Bool)
    (res : TechImplantResult) (i : Nat) (tech : TechT)
    (h : implant_techs_from_dat source target sS sEnd cnt tS warn = .ok res)
    (hD : sS ≤ tS)
    (hi : i < res.cnt)
    (hti : source.techs.get? (sS + i) = some tech) :
    (∃ eff, source.effects[tech.effect_id.toNat]? = some eff ∧
      res.tgt.effects[(tech.effect_id + ((tS : Int) - sS)).toNat]? = some eff) ∧
    (∃ t', res.tgt.techs[tS + i]? = some t' ∧
      t'.effect_id = tech.effect_id + ((tS : Int) - sS)) := by
  obtain ⟨K, hK, hcore⟩ := implant_techs_ok_inv h
  obtain ⟨eff_list, e, rest, hcol, hded, hext⟩ := implantTechsCore_ok_inv hcore
  obtain ⟨pe, effTail, pt, techTail, heff, htech, hws⟩ := implantTechsExtend_ok_inv hext
  obtain ⟨ow, how, hfin⟩ := implantTechsWithStores_ok_inv hws
  obtain ⟨effects2, techs2, himpE, himpT, hres⟩ := implantTechsFinish_ok_inv hfin
  have hcnt : res.cnt = K := by rw [hres]
  rw [hcnt] at hi
  obtain ⟨hbounds, hmem⟩ := (collectEffectIds_spec source sS source.effects.length
    K eff_list hcol)
  have heid_mem : tech.effect_id ∈ eff_list := hmem i hi tech hti
  obtain ⟨heid0, heidlt⟩ := hbounds tech.effect_id heid_mem
  have heid_ded : tech.effect_id ∈ e :: rest := by
    rw [← hded]
    exact List.mem_dedup.mpr heid_mem
  have hDpos : (0 : Int) ≤ (tS : Int) - sS := by omega
  -- bound by the fold maximum
  have hmax : tech.effect_id + ((tS : Int) - sS) ≤
      rest.foldl (fun acc y => max acc (y + ((tS : Int) - sS)))
        (e + ((tS : Int) - sS)) := by
    rcases List.mem_cons.mp heid_ded with heq | hmemr
    · rw [heq]
      exact (foldl_max_bounds ((tS : Int) - sS) rest (e + ((tS : Int) - sS))).1
    · exact (foldl_max_bounds ((tS : Int) - sS) rest (e + ((tS : Int) - sS))).2
        tech.effect_id hmemr
  have hlen1 : (tech.effect_id + ((tS : Int) - sS)).toNat <
      (ensureLengthInt target.effects
        (rest.foldl (fun acc y => max acc (y + ((tS : Int) - sS)))
          (e + ((tS : Int) - sS)) + 1) pe).length := by
    have : (ensureLengthInt target.effects
        (rest.foldl (fun acc y => max acc (y + ((tS : Int) - sS)))
          (e + ((tS : Int) - sS)) + 1) pe).length
        = max target.effects.length
            (rest.foldl (fun acc y => max acc (y + ((tS : Int) - sS)))
              (e + ((tS : Int) - sS)) + 1).toNat := ensure_length_length _ _ _
    rw [this]
    omega
  have hposall : ∀ z ∈ e :: rest, (0 : Int) ≤ z + ((tS : Int) - sS) := by
    intro z hz
    rw [← hded] at hz
    have := (hbounds z (List.mem_dedup.mp hz)).1
    omega
  have hnd : (e :: rest).Nodup := by
    rw [← hded]
    exact List.nodup_dedup _
  have hlt2 : tech.effect_id.toNat < source.effects.length := by omega
  have hsrc_eff : source.effects[tech.effect_id.toNat]?
      = some source.effects[tech.effect_id.toNat] :=
    List.getElem?_eq_getElem hlt2
  constructor
  · refine ⟨source.effects[tech.effect_id.toNat], hsrc_eff, ?_⟩
    have := implantEffects_at (e :: rest) _ effects2 tech.effect_id
      source.effects[tech.effect_id.toNat] himpE hnd hposall
      heid_ded hsrc_eff hlen1
    rw [hres]
    exact this
  · have hlen2 : tS + i < (_ensure_length target.techs (tS + K) pt).length := by
      rw [ensure_length_length]
      omega
    have := implantTechWrites_at K 0 _ techs2 i tech himpT (by omega) (by omega)
      (by simpa using hti) hlen2
    refine ⟨{ tech with
        effect_id := tech.effect_id + ((tS : Int) - sS),
        required_techs := tech.required_techs.map fun r =>
          if (sS : Int) ≤ r ∧ r ≤ ((sS + K - 1 : Nat) : Int) then
            r + ((tS : Int) - sS)
          else r }, ?_, rfl⟩
    rw [hres]
    exact this

/-- C8 witness at concrete inputs: implanting tech 1 (which references
effect 0) at slot 2 with offset `D = 1` copies effect 0 to effect slot
1 and rewrites the implanted tech's `effect_id` to 1. -/
theorem tech_implant_effect_offset_witness :
    (∃ eff, wSrcT.effects[((0 : Int)).toNat]? = some eff ∧
      wTechRes.tgt.effects[((0 : Int) + ((2 : Int) - 1)).toNat]? = some eff) ∧
    (∃ t', wTechRes.tgt.techs[2 + 0]? = some t' ∧
      t'.effect_id = (0 : Int) + ((2 : Int) - 1)) := by
  have h := tech_implant_effect_offset wSrcT wTgtT 1 none none 2 true wTechRes 0
    (sampleTech "t1" 0 [1, -1]) rfl (by decide) (by decide) rfl
  exact h

/-- C8 counterexample: with `target_tech_start = 0 < source_start = 1`
the offset is `D = -1` and the referenced effect's computed slot
`0 + D = -1` is negative: no such effect slot exists.  The implant
nevertheless succeeds — the Python write `effects[-1] = ...` wraps
around and overwrites the *last* effect slot (slot 1, old name "f1"),
and the implanted tech's `effect_id` becomes `-1` — so the effect is
not copied to slot `old + D` as claimed. -/
theorem tech_implant_offset_cex :
    implant_techs_from_dat wSrcT wTgtT 1 none none 0 true
      = .ok { src := wSrcT,
              tgt := { techs := [sampleTech "t1" (-1) [0, -1]],
                       effects := [sampleEffect "f0" 1, sampleEffect "e0" 7] },
              cnt := 1, ow_effects := [(-1, "f1")], ow_techs := [(0, "p")],
              noticed := true }
      ∧ ((0 : Int) + ((0 : Int) - 1) < 0) := ⟨rfl, by decide⟩

/-! ## Overwrite notice (C9) -/

theorem overwrittenIdx_mem (d : DatFileU) (T K idx : Nat) :
    idx ∈ overwrittenIdx d T K ↔
      (T ≤ idx ∧ idx < T + K ∧ overwriteCond d idx = true) := by
  unfold overwrittenIdx
  rw [List.mem_filterMap]
  constructor
  · rintro ⟨i, hi, hf⟩
    rw [List.mem_range] at hi
    by_cases hc : overwriteCond d (T + i) = true
    · rw [if_pos hc] at hf
      have hidx : T + i = idx := (Option.some.injEq _ _).mp hf
      subst hidx
      exact ⟨by omega, by omega, hc⟩
    · rw [if_neg hc] at hf
      cases hf
  · rintro ⟨h1, h2, hc⟩
    refine ⟨idx - T, List.mem_range.mpr (by omega), ?_⟩
    have hTi : T + (idx - T) = idx := by omega
    rw [hTi, if_pos hc]

theorem slotOccupied_ensure (civs : List CivT) (hs hs2 : List (Option UnitHeadersT))
    (needLen idx : Nat) :
    slotOccupied ⟨hs2, civs.map fun civ => ⟨_ensure_length civ.units needLen none⟩⟩ idx
      = slotOccupied ⟨hs, civs⟩ idx := by
  have hpt : ∀ units : List (Option UnitT),
      (match (_ensure_length units needLen none).get? idx with
        | some (some _) => true | _ => false)
      = (match units.get? idx with | some (some _) => true | _ => false) := by
    intro units
    rw [List.get?_eq_getElem?, List.get?_eq_getElem?]
    by_cases hlt : idx < units.length
    · rw [ensure_length_getElem?_of_lt _ _ _ _ hlt]
    · have horig : units[idx]? = none := List.getElem?_eq_none (by omega)
      rw [horig]
      by_cases hpad : idx < needLen
      · rw [ensure_length_getElem?_pad _ _ _ _ (by omega) hpad]
      · have hnone : (_ensure_length units needLen none)[idx]? = none := by
          apply List.getElem?_eq_none
          rw [ensure_length_length]
          omega
        rw [hnone]
  unfold slotOccupied
  show (civs.map _).any _ = civs.any _
  rw [List.any_map]
  induction civs with
  | nil => rfl
  | cons c rest ih =>
      rw [List.any_cons, List.any_cons, ih]
      show ((match (_ensure_length c.units needLen none).get? idx with
          | some (some _) => true | _ => false) || _) = _
      rw [hpt c.units]

theorem overwriteCond_extended (target : DatFileU) (T K idx : Nat)
    (h1 : T ≤ idx) (h2 : idx < T + K) :
    overwriteCond
      ⟨_ensure_length target.unit_headers (T + K) (some _blank_unit_header),
       target.civs.map fun civ => ⟨_ensure_length civ.units (T + K) none⟩⟩ idx
      = specPreExistingNonEmpty target idx := by
  have hocc2 : slotOccupied
      ⟨_ensure_length target.unit_headers (T + K) (some _blank_unit_header),
       target.civs.map fun civ => ⟨_ensure_length civ.units (T + K) none⟩⟩ idx
      = slotOccupied target idx :=
    slotOccupied_ensure target.civs target.unit_headers
      (_ensure_length target.unit_headers (T + K) (some _blank_unit_header)) (T + K) idx
  unfold overwriteCond specPreExistingNonEmpty
  rw [List.get?_eq_getElem?, List.get?_eq_getElem?]
  show (match (_ensure_length target.unit_headers (T + K)
      (some _blank_unit_header))[idx]? with
    | none => false
    | some h => (¬ _is_blank_header h) || slotOccupied _ idx) = _
  by_cases hlt : idx < target.unit_headers.length
  · rw [ensure_length_getElem?_of_lt _ _ _ _ hlt]
    cases hh : target.unit_headers[idx]? with
    | none =>
        rw [List.getElem?_eq_none_iff] at hh
        omega
    | some h => simp [hocc2]
  · have horig : target.unit_headers[idx]? = none := List.getElem?_eq_none (by omega)
    rw [horig, ensure_length_getElem?_pad _ _ _ _ (by omega) (by omega)]
    simp only [_is_blank_header, _blank_unit_header]
    exact hocc2

theorem owTechsList_mem (tS K : Nat) (techs1 : List TechT) (idx : Nat) :
    (∃ nm, (idx, nm) ∈ owTechsList tS K techs1) ↔ (tS ≤ idx ∧ idx < tS + K) := by
  unfold owTechsList
  constructor
  · rintro ⟨nm, hmem⟩
    rw [List.mem_map] at hmem
    obtain ⟨i, hi, hf⟩ := hmem
    rw [List.mem_range] at hi
    have hfst : tS + i = idx := congrArg Prod.fst hf
    omega
  · rintro ⟨ha, hb⟩
    refine ⟨(((techs1.get? idx).map TechT.name).getD ""), ?_⟩
    rw [List.mem_map]
    refine ⟨idx - tS, List.mem_range.mpr (by omega), ?_⟩
    have hTi : tS + (idx - tS) = idx := by omega
    rw [hTi]

theorem implantTechsFinish_warn (source : DatFileT) (sS tS K : Nat) (w w2 : Bool)
    (eids : List Int) (eff1 : List EffectT) (t1 : List TechT)
    (ow : List (Int × String)) :
    (implantTechsFinish source sS tS K w eids eff1 t1 ow).map
        (fun r => (r.src, r.tgt, r.cnt, r.ow_effects, r.ow_techs))
      = (implantTechsFinish source sS tS K w2 eids eff1 t1 ow).map
        (fun r => (r.src, r.tgt, r.cnt, r.ow_effects, r.ow_techs)) := by
  unfold implantTechsFinish
  cases implantEffects source ((tS : Int) - sS) eids eff1 with
  | error msg => rfl
  | ok eff2 =>
      cases implantTechWrites source sS tS ((tS : Int) - sS) (sS + K - 1) 0 K t1 with
      | error msg => rfl
      | ok t2 => rfl

theorem implantTechsWithStores_warn (source : DatFileT) (sS tS K : Nat)
    (w w2 : Bool) (eids : List Int) (eff1 : List EffectT) (t1 : List TechT) :
    (implantTechsWithStores source sS tS K w eids eff1 t1).map
        (fun r => (r.src, r.tgt, r.cnt, r.ow_effects, r.ow_techs))
      = (implantTechsWithStores source sS tS K w2 eids eff1 t1).map
        (fun r => (r.src, r.tgt, r.cnt, r.ow_effects, r.ow_techs)) := by
  unfold implantTechsWithStores
  cases collectOwEffects ((tS : Int) - sS) eff1 eids with
  | error msg => rfl
  | ok ow => exact implantTechsFinish_warn source sS tS K w w2 eids eff1 t1 ow

theorem implantTechsExtend_warn (source target : DatFileT) (sS tS K : Nat)
    (w w2 : Bool) (eids : List Int) (mx : Int) :
    (implantTechsExtend source target sS tS K w eids mx).map
        (fun r => (r.src, r.tgt, r.cnt, r.ow_effects, r.ow_techs))
      = (implantTechsExtend source target sS tS K w2 eids mx).map
        (fun r => (r.src, r.tgt, r.cnt, r.ow_effects, r.ow_techs)) := by
  unfold implantTechsExtend
  cases target.effects with
  | nil =>
      cases target.techs with
      | nil => rfl
      | cons pt techTail => rfl
  | cons pe effTail =>
      cases target.techs with
      | nil => rfl
      | cons pt techTail => exact implantTechsWithStores_warn source sS tS K w w2 _ _ _

theorem implantTechsCore_warn (source target : DatFileT) (sS tS K : Nat)
    (w w2 : Bool) :
    (implantTechsCore source target sS tS K w).map
        (fun r => (r.src, r.tgt, r.cnt, r.ow_effects, r.ow_techs))
      = (implantTechsCore source target sS tS K w2).map
        (fun r => (r.src, r.tgt, r.cnt, r.ow_effects, r.ow_techs)) := by
  unfold implantTechsCore
  cases collectEffectIds source sS source.effects.length K with
  | error msg => rfl
  | ok eff_list =>
      show ((match eff_list.dedup with
          | [] => (Except.error "max() arg is an empty sequence" :
              Except String TechImplantResult)
          | e :: rest =>
              implantTechsExtend source target sS tS K w (e :: rest)
                (rest.foldl (fun acc y => max acc (y + ((tS : Int) - sS)))
                  (e + ((tS : Int) - sS)))).map _)
        = ((match eff_list.dedup with
          | [] => (Except.error "max() arg is an empty sequence" :
              Except String TechImplantResult)
          | e :: rest =>
              implantTechsExtend source target sS tS K w2 (e :: rest)
                (rest.foldl (fun acc y => max acc (y + ((tS : Int) - sS)))
                  (e + ((tS : Int) - sS)))).map _)
      cases eff_list.dedup with
      | nil => rfl
      | cons e rest => exact implantTechsExtend_warn source target sS tS K w w2 _ _

theorem implant_techs_warn_independent (source target : DatFileT) (sS : Nat)
    (sEnd : Option Nat) (cnt : Option Int) (tS : Nat) (w w2 : Bool) :
    (implant_techs_from_dat source target sS sEnd cnt tS w).map
        (fun r => (r.src, r.tgt, r.cnt, r.ow_effects, r.ow_techs))
      = (implant_techs_from_dat source target sS sEnd cnt tS w2).map
        (fun r => (r.src, r.tgt, r.cnt, r.ow_effects, r.ow_techs)) := by
  unfold implant_techs_from_dat
  cases implantCountTechsE source.techs.length sS sEnd cnt with
  | error msg => rfl
  | ok K => exact implantTechsCore_warn source target sS tS K w w2

/-- C9 (amended): for unit implants the overwrite notice lists exactly
the footprint slots that held a pre-existing non-empty record before
the implant; for tech implants it lists every destination tech slot,
whether or not it pre-existed.  In both implanters the notice is
emitted only when the warn flag is set, and it is never fatal: the
resulting stores, counts and reported slots do not depend on the flag. -/
theorem overwrite_notice_amended :
    (∀ (source target : DatFileU) (s : Nat) (e : Option Nat) (cnt : Option Int)
        (T : Nat) (w x : Bool) (res : ImplantResult),
      implant_units_from_dat source target s e cnt T w x = .ok res →
      (∀ idx, idx ∈ res.overwritten ↔
        (T ≤ idx ∧ idx < T + res.cnt ∧ specPreExistingNonEmpty target idx = true)) ∧
      res.noticed = ((¬ res.overwritten.isEmpty) && w)) ∧
    (∀ (source target : DatFileU) (s : Nat) (e : Option Nat) (cnt : Option Int)
        (T : Nat) (w w' x : Bool),
      (implant_units_from_dat source target s e cnt T w x).map
          (fun r => (r.src, r.tgt, r.cnt, r.overwritten))
        = (implant_units_from_dat source target s e cnt T w' x).map
          (fun r => (r.src, r.tgt, r.cnt, r.overwritten))) ∧
    (∀ (source target : DatFileT) (s : Nat) (e : Option Nat) (cnt : Option Int)
        (tS : Nat) (w : Bool) (res : TechImplantResult),
      implant_techs_from_dat source target s e cnt tS w = .ok res →
      (∀ idx, (∃ nm, (idx, nm) ∈ res.ow_techs) ↔ (tS ≤ idx ∧ idx < tS + res.cnt)) ∧
      res.noticed = ((!res.ow_effects.isEmpty || !res.ow_techs.isEmpty) && w)) ∧
    (∀ (source target : DatFileT) (s : Nat) (e : Option Nat) (cnt : Option Int)
        (tS : Nat) (w w' : Bool),
      (implant_techs_from_dat source target s e cnt tS w).map
          (fun r => (r.src, r.tgt, r.cnt, r.ow_effects, r.ow_techs))
        = (implant_techs_from_dat source target s e cnt tS w').map
          (fun r => (r.src, r.tgt, r.cnt, r.ow_effects, r.ow_techs))) := by
  refine ⟨?_, ?_, ?_, implant_techs_warn_independent⟩
  · intro source target s e cnt T w x res h
    obtain ⟨K, hK, rfl⟩ := (implant_units_ok_iff source target s e cnt T w x res).mp h
    constructor
    · intro idx
      show idx ∈ overwrittenIdx _ T K ↔ _
      rw [overwrittenIdx_mem]
      rw [implantUnitsCore_cnt]
      constructor
      · rintro ⟨h1, h2, hc⟩
        rw [overwriteCond_extended target T K idx h1 h2] at hc
        exact ⟨h1, h2, hc⟩
      · rintro ⟨h1, h2, hc⟩
        rw [← overwriteCond_extended target T K idx h1 h2] at hc
        exact ⟨h1, h2, hc⟩
    · rfl
  · intro source target s e cnt T w w' x
    unfold implant_units_from_dat
    cases implantCountUnitsE (nUnits source) s e cnt with
    | error msg => rfl
    | ok K => rfl
  · intro source target s e cnt tS w res h
    obtain ⟨K, hK, hcore⟩ := implant_techs_ok_inv h
    obtain ⟨eff_list, e0, rest, hcol, hded, hext⟩ := implantTechsCore_ok_inv hcore
    obtain ⟨pe, effTail, pt, techTail, heff, htech, hws⟩ :=
      implantTechsExtend_ok_inv hext
    obtain ⟨ow, how, hfin⟩ := implantTechsWithStores_ok_inv hws
    obtain ⟨effects2, techs2, himpE, himpT, hres⟩ := implantTechsFinish_ok_inv hfin
    subst hres
    exact ⟨fun idx => owTechsList_mem tS K _ idx, rfl⟩

/-- C9 witness at concrete inputs: slot 2 (the only occupied footprint
slot) is reported by the unit implanter with the notice flag set, and
the tech implanter reports its whole (here one-slot) footprint. -/
theorem overwrite_notice_amended_witness :
    ((2 ∈ (implantUnitsCore wSrcU wTgtU 0 1 2 true true).overwritten ↔
      (1 ≤ 2 ∧ 2 < 1 + (implantUnitsCore wSrcU wTgtU 0 1 2 true true).cnt ∧
        specPreExistingNonEmpty wTgtU 2 = true)) ∧
     (implantUnitsCore wSrcU wTgtU 0 1 2 true true).noticed
       = ((¬ (implantUnitsCore wSrcU wTgtU 0 1 2 true true).overwritten.isEmpty)
         && true)) ∧
    ((∃ nm, (2, nm) ∈ wTechRes.ow_techs) ↔ (2 ≤ 2 ∧ 2 < 2 + wTechRes.cnt)) ∧
    wTechRes.noticed
      = ((!wTechRes.ow_effects.isEmpty || !wTechRes.ow_techs.isEmpty) && true) := by
  have h1 := overwrite_notice_amended.1 wSrcU wTgtU 0 none none 1 true true
    (implantUnitsCore wSrcU wTgtU 0 1 2 true true) rfl
  have h3 := overwrite_notice_amended.2.2.1 wSrcT wTgtT 1 none none 2 true wTechRes rfl
  exact ⟨⟨h1.1 2, h1.2⟩, h3.1 2, h3.2⟩

/-- C9 counterexample: the tech implanter's notice reports destination
slot 2 even though the target had only one tech slot before the implant
— the reported slot was freshly created by the extension, so the notice
is not restricted to pre-existing non-empty slots. -/
theorem overwrite_notice_cex :
    implant_techs_from_dat wSrcT wTgtT 1 none none 2 true = .ok wTechRes
      ∧ wTechRes.ow_techs = [(2, "p")] ∧ wTgtT.techs.length = 1 :=
  ⟨rfl, rfl, rfl⟩

/-- C4 witness: implanting 2 units at slot 3 leaves slot 0 (header and
unit) of the target untouched and the source unchanged. -/
theorem implant_units_footprint_containment_witness :
    (implantUnitsCore wSrcU wTgtU 0 3 2 true true).src = wSrcU ∧
    (implantUnitsCore wSrcU wTgtU 0 3 2 true true).tgt.unit_headers[0]?
      = wTgtU.unit_headers[0]? ∧
    ((implantUnitsCore wSrcU wTgtU 0 3 2 true true).tgt.civs[0]?).map
      (fun cv => cv.units[0]?) = some ((⟨[some (sampleUnit 0 1), none,
        some (sampleUnit 2 7)]⟩ : CivT).units[0]?) := by
  have h := implant_units_footprint_containment wSrcU wTgtU 0 none none 3 true true
    (implantUnitsCore wSrcU wTgtU 0 3 2 true true) rfl
  refine ⟨h.1, ?_, ?_⟩
  · exact h.2.1 0 (by decide) (by left; decide)
  · exact h.2.2 0 _ 0 rfl (by decide) (by left; decide)

end AOE2
